import Mathlib

/-!
Verification development for the `progressbar` repository.

The repository contains two near-identical implementations of the same
console progress-bar library in `progressbar.go`:
* variant 1 (lines 1-1075), modelled in namespace `Progressbar.V1`, and
* variant 2 (lines 1078-2112), modelled in namespace `Progressbar.V2`.

Modelling conventions:
* Go `int64` values are modelled as `ℤ` (no claim involves wrap-around).
* Go `float64` values and timestamps are modelled as `ℚ` with exact
  arithmetic; `time.Time`/`time.Duration` values become rational seconds.
  Division by zero in `ℚ` yields `0` where Go would produce `NaN`/`Inf`;
  no settled claim depends on a state field computed from such a division.
  Arithmetic on `ℚ` is spelled through `goAdd`/`goSub`/`goMul`/`goDiv`
  (definitionally reducible versions of `+`/`-`/`*`/`/`, proved equal to
  them below) so that concrete runs can be evaluated by `decide`.
* Go float-to-int conversion truncates toward zero (`goTrunc`); `math.Mod`
  is `goFMod`; `math.Round` (half away from zero) is `goRound`.
* The byte stream written to the configured `io.Writer` is modelled as a
  list of written strings (field `out` of the state); writes themselves
  never fail in the model (output errors are outside the settled claims).
* The string-layout part of `renderProgressBar` (the "Line Composer" of the
  spec) only influences the *content* of written lines, never whether a
  write happens or what `add` returns; it is therefore passed as an
  explicit function argument `line` and all theorems hold for every such
  composer.  The spinner-branch string layout, which claim C6 is about, is
  embedded concretely (`spinnerLineV1`/`spinnerLineV2`).
-/

namespace Progressbar

/-- Reducible addition on `ℚ` (equal to `+`, see `goAdd_eq`). -/
def goAdd (x y : ℚ) : ℚ := Rat.divInt (x.num * y.den + y.num * x.den) ((x.den : ℤ) * y.den)

/-- Reducible subtraction on `ℚ` (equal to `-`, see `goSub_eq`). -/
def goSub (x y : ℚ) : ℚ := Rat.divInt (x.num * y.den - y.num * x.den) ((x.den : ℤ) * y.den)

/-- Reducible multiplication on `ℚ` (equal to `*`, see `goMul_eq`). -/
def goMul (x y : ℚ) : ℚ := Rat.divInt (x.num * y.num) ((x.den : ℤ) * y.den)

/-- Reducible division on `ℚ`.  Equal to `/` (see `goDiv_eq`); in
particular `goDiv x 0 = 0`, standing in for Go's `NaN`/`Inf` — commented
at each use site where the divisor can be zero. -/
def goDiv (x y : ℚ) : ℚ := Rat.divInt (x.num * y.den) ((x.den : ℤ) * y.num)

theorem den_cast_ne (x : ℚ) : ((x.den : ℚ)) ≠ 0 :=
  by exact_mod_cast x.den_nz

theorem cast_num_den (x : ℚ) : (x.num : ℚ) = x * x.den := by
  calc (x.num : ℚ) = ((x.num : ℚ) / x.den) * x.den := by
        rw [div_mul_cancel₀ _ (den_cast_ne x)]
    _ = x * x.den := by rw [Rat.num_div_den x]

theorem goAdd_eq (x y : ℚ) : goAdd x y = x + y := by
  rw [goAdd, Rat.divInt_eq_div]
  push_cast
  field_simp
  rw [cast_num_den x, cast_num_den y]
  ring

theorem goSub_eq (x y : ℚ) : goSub x y = x - y := by
  rw [goSub, Rat.divInt_eq_div]
  push_cast
  field_simp
  rw [cast_num_den x, cast_num_den y]
  ring

theorem goMul_eq (x y : ℚ) : goMul x y = x * y := by
  rw [goMul, Rat.divInt_eq_div]
  push_cast
  field_simp
  rw [cast_num_den x, cast_num_den y]
  ring

theorem goDiv_eq (x y : ℚ) : goDiv x y = x / y := by
  rw [goDiv, Rat.divInt_eq_div]
  push_cast
  rcases eq_or_ne y 0 with rfl | hy
  · simp
  · have hyn : ((y.num : ℚ)) ≠ 0 := by exact_mod_cast Rat.num_ne_zero.mpr hy
    field_simp
    rw [cast_num_den x, cast_num_den y]
    ring

/-- The rational 1/2, in reducible form. -/
def half : ℚ := Rat.divInt 1 2

theorem half_eq : half = 1/2 := by
  rw [half, Rat.divInt_eq_div]
  norm_num

/-- Kernel-computable floor of a rational, `Rat.floor`. -/
def goFloor (q : ℚ) : ℤ := q.num / q.den

theorem goFloor_eq (q : ℚ) : goFloor q = ⌊q⌋ := (Rat.floor_def).symm

/-- Go's float-to-integer conversion: truncation toward zero. -/
def goTrunc (q : ℚ) : ℤ := if 0 ≤ q then goFloor q else -goFloor (-q)

/-- Go's `math.Round`: round half away from zero. -/
def goRound (q : ℚ) : ℚ :=
  if 0 ≤ q then ((goFloor (goAdd q half) : ℤ) : ℚ) else -((goFloor (goAdd (-q) half) : ℤ) : ℚ)

/-- Go's `math.Mod(x, y) = x - y*Trunc(x/y)` (result has the sign of `x`). -/
def goFMod (x y : ℚ) : ℚ := goSub x (goMul y ((goTrunc (goDiv x y) : ℤ) : ℚ))

theorem goTrunc_of_nonneg {q : ℚ} (h : 0 ≤ q) : goTrunc q = ⌊q⌋ := by
  rw [goTrunc, if_pos h, goFloor_eq]

theorem goTrunc_intCast (z : ℤ) : goTrunc (z : ℚ) = z := by
  rcases le_or_lt 0 (z : ℚ) with h | h
  · rw [goTrunc_of_nonneg h, Int.floor_intCast]
  · rw [goTrunc, if_neg (not_le.mpr h), ← Int.cast_neg, goFloor_eq, Int.floor_intCast, neg_neg]

theorem floor_half : ⌊(1 : ℚ)/2⌋ = 0 :=
  Int.floor_eq_zero_iff.mpr (by constructor <;> norm_num)

theorem floor_int_add_half (w : ℤ) : ⌊(w : ℚ) + 1/2⌋ = w := by
  rw [Int.floor_int_add w ((1 : ℚ)/2), floor_half, add_zero]

theorem goRound_intCast (z : ℤ) : goRound (z : ℚ) = (z : ℚ) := by
  rcases le_or_lt 0 (z : ℚ) with h | h
  · rw [goRound, if_pos h, goAdd_eq, half_eq, goFloor_eq, floor_int_add_half z]
  · rw [goRound, if_neg (not_le.mpr h), goAdd_eq, half_eq, goFloor_eq]
    have hc : (-(z : ℚ) + 1/2) = ((-z : ℤ) : ℚ) + 1/2 := by push_cast; ring
    rw [hc, floor_int_add_half (-z)]
    push_cast
    ring

/-- `fmt`'s `%.0f`-style rounding: round to nearest, ties to even. -/
def roundHalfEven (q : ℚ) : ℤ :=
  let f := goFloor q
  let r := goSub q ((f : ℤ) : ℚ)
  if r < half then f
  else if half < r then f + 1
  else if f % 2 = 0 then f else f + 1

/-- Decimal digit characters of a natural number (fuel-based so that the
kernel can evaluate it; mirrors the accumulator style of `Nat.toDigits`). -/
def natDigitsCore : ℕ → ℕ → List Char → List Char
  | 0, _, acc => acc
  | fuel + 1, n, acc =>
    let d := Char.ofNat (48 + n % 10)
    if n < 10 then d :: acc else natDigitsCore fuel (n / 10) (d :: acc)

/-- Decimal rendering of a natural number. -/
def natStr (n : ℕ) : String := ⟨natDigitsCore (n + 1) n []⟩

/-- Decimal rendering of an integer. -/
def intStr (z : ℤ) : String := if z < 0 then "-" ++ natStr (-z).toNat else natStr z.toNat

/-- `fmt.Sprintf("%.0f", q)` for the exact value `q`. -/
def fmtDec0 (q : ℚ) : String := intStr (roundHalfEven q)

/-- `fmt.Sprintf("%.1f", q)` for the exact value `q`. -/
def fmtDec1 (q : ℚ) : String :=
  let n := roundHalfEven (goMul 10 q)
  if n < 0 then "-" ++ natStr ((-n).toNat / 10) ++ "." ++ natStr ((-n).toNat % 10)
  else natStr (n.toNat / 10) ++ "." ++ natStr (n.toNat % 10)

/-- `fmt.Sprintf("%2.0f", q)`: like `%.0f` but right-aligned to width 2. -/
def fmtWidth2 (q : ℚ) : String :=
  let s := fmtDec0 q
  if s.length < 2 then " " ++ s else s

/-- `true` iff the string contains no decimal point. -/
def hasNoDecimal (s : String) : Bool := s.data.all (fun c => c != '.')

/-- `true` iff the string has exactly one character after its first (and
only) decimal point. -/
def hasOneDecimal (s : String) : Bool :=
  (s.data.dropWhile (fun c => c != '.')).length == 2

/-- Suffix table of variant 1 (progressbar.go line 1038). -/
def sizesV1 : List String := [" B", " kB", " MB", " GB", " TB", " PB", " EB"]

/-- Suffix table of variant 2 (progressbar.go line 2075). -/
def sizesV2 : List String := ["B", "KB", "MB", "GB", "TB", "PB", "EB"]

/-- Powers of 1000 in `ℚ`, in reducible form. -/
def pow1000 : ℕ → ℚ
  | 0 => 1
  | n + 1 => goMul 1000 (pow1000 n)

theorem pow1000_eq (n : ℕ) : pow1000 n = (1000 : ℚ) ^ n := by
  induction n with
  | zero => rfl
  | succ n ih => rw [pow1000, goMul_eq, ih, pow_succ]; ring

/-- The exponent `e = math.Floor(logn(s, 1000))` of `humanizeBytes`,
characterised exactly: the largest `e ≤ 6` with `1000^e ≤ s`.  (The Go code
computes it through `float64` logarithms; for `10 ≤ s < 1000^7` — beyond
which Go would index `sizes` out of range — the two agree.) -/
def hbExp (s : ℚ) : ℕ :=
  if 1000000000000000000 ≤ s then 6
  else if 1000000000000000 ≤ s then 5
  else if 1000000000000 ≤ s then 4
  else if 1000000000 ≤ s then 3
  else if 1000000 ≤ s then 2
  else if 1000 ≤ s then 1
  else 0

/-- `val := math.Floor(s/math.Pow(1000, e)*10+0.5)/10` of `humanizeBytes`. -/
def hbVal (s : ℚ) : ℚ :=
  goDiv ((goFloor (goAdd (goMul (goDiv s (pow1000 (hbExp s))) 10) half) : ℤ) : ℚ) 10

/-- `humanizeBytes` (progressbar.go lines 1040-1050 and 2077-2087; the two
variants differ only in their suffix table, passed as `sizes`). -/
def humanizeBytes (sizes : List String) (s : ℚ) : String × String :=
  if s < 10 then (fmtWidth2 s, sizes.getD 0 "")
  else if hbVal s < 10 then (fmtDec1 (hbVal s), sizes.getD (hbExp s) "")
  else (fmtDec0 (hbVal s), sizes.getD (hbExp s) "")

example : humanizeBytes sizesV2 12340000 = ("12", "MB") := by decide
example : humanizeBytes sizesV1 56780000000 = ("57", " GB") := by decide
example : natStr 1234 = "1234" := by decide
example : fmtDec1 (hbVal 12340000) = "12.3" := by decide
example : fmtWidth2 5 = " 5" := by decide

/-- `strings.Repeat(s, n)` (only ever called with nonnegative `n`). -/
def strRepeat (s : String) (n : ℤ) : String := String.join (List.replicate n.toNat s)

/-- Result of an `add` call: the post-state, the returned error (as its Go
message) and whether the render step was invoked. -/
structure AddRes (St : Type) where
  state : St
  err : Option String
  rendered : Bool
deriving DecidableEq

/-- The render condition shared by both variants' `add` (lines 542+550 and
1579+1584): percentage changed and positive, or a rate/count display is
enabled, or the delta is zero. -/
def renderCond (showIts showCount : Bool) (lastPct newPct delta : ℤ) : Prop :=
  (newPct ≠ lastPct ∧ 0 < newPct) ∨ showIts = true ∨ showCount = true ∨ delta = 0

instance (showIts showCount : Bool) (lastPct newPct delta : ℤ) :
    Decidable (renderCond showIts showCount lastPct newPct delta) := by
  unfold renderCond
  infer_instance

namespace V1

/-- Configuration fields of variant 1 that its `add`/`render` control flow
reads (progressbar.go lines 57-113).  Purely decorative fields (theme,
description, labels, …) are only consumed by the string-layout function,
which is abstracted as the `Line` argument. -/
structure Config where
  max : ℤ
  width : ℤ
  invisible : Bool
  ignoreLength : Bool
  totalRate : Bool
  showIterationsPerSecond : Bool
  showIterationsCount : Bool
  throttleDuration : ℚ
  useANSICodes : Bool
  clearOnFinish : Bool
deriving DecidableEq

/-- Mutable state of variant 1 (progressbar.go lines 36-55), extended with
`out`, the list of strings written to the configured writer. -/
structure State where
  currentNum : ℤ
  currentPercent : ℤ
  lastPercent : ℤ
  currentSaucerSize : ℤ
  lastShown : ℚ
  startTime : ℚ
  counterTime : ℚ
  counterNumSinceLast : ℤ
  counterLastTenRates : List ℚ
  maxLineWidth : ℤ
  currentBytes : ℚ
  finished : Bool
  stopped : Bool
  rendered : String
  out : List String
deriving DecidableEq

/-- A line composer: from config, state and current time to the composed
line and its measured display width (the two return values of
`renderProgressBar`, lines 764-955, whose layout content no settled claim
depends on). -/
abbrev Line := Config → State → ℚ → String × ℤ

/-- `writeString` of variant 1 (lines 969-980): always writes. -/
def writeOut (s : State) (str : String) : State := { s with out := s.out ++ [str] }

/-- `clearProgressBar` of variant 1 (lines 957-967). -/
def clearBar (c : Config) (s : State) : State :=
  if s.maxLineWidth = 0 then s
  else if c.useANSICodes then writeOut s "\x1b[2K\r"
  else writeOut s ("\r" ++ strRepeat " " s.maxLineWidth ++ "\r")

/-- The effect of `renderProgressBar` (lines 764-955): compose the line via
the abstract composer, record it in `rendered`, write it, return its
measured width. -/
def renderBar (line : Line) (c : Config) (s : State) (now : ℚ) : ℤ × State :=
  let p := line c s now
  (p.2, writeOut { s with rendered := p.1 } p.1)

/-- `render` of variant 1 (lines 648-704). -/
def render (line : Line) (c : Config) (now : ℚ) (s : State) : State :=
  if goSub now s.lastShown < c.throttleDuration ∧ s.currentNum < c.max then s
  else
    let s1 := if ¬c.useANSICodes then clearBar c s else s
    let s2 :=
      if ¬s1.finished ∧ (c.max ≤ s1.currentNum ∨ s1.stopped) then
        let s' : State := { s1 with finished := true }
        if ¬c.clearOnFinish then (renderBar line c s' now).2 else s'
      else s1
    if s2.finished then
      if c.useANSICodes ∧ c.clearOnFinish then clearBar c s2 else s2
    else
      let p := renderBar line c s2 now
      let s3 := if s2.maxLineWidth < p.1 then { p.2 with maxLineWidth := p.1 } else p.2
      { s3 with lastShown := now }

/-- The rolling-rate buffer update inlined in variant 1's `add` (lines
530-533): append, then drop the oldest sample if over capacity. -/
def rateFlushStep (l : List ℚ) (rate : ℚ) : List ℚ :=
  let l' := l ++ [rate]
  if 10 < l'.length then l'.drop 1 else l'

/-- The counter mutation of variant 1's `add` (lines 515-521): only mutate
while the counter is below max; reduce modulo max in ignore-length mode. -/
def counterStep (c : Config) (delta : ℤ) (s : State) : State :=
  if s.currentNum < c.max then
    if c.ignoreLength then { s with currentNum := Int.tmod (s.currentNum + delta) c.max }
    else { s with currentNum := s.currentNum + delta }
  else s

/-- The rolling-rate block of variant 1's `add` (lines 525-537). -/
def rateStep (now : ℚ) (delta : ℤ) (s : State) : State :=
  let s1 : State := { s with counterNumSinceLast := s.counterNumSinceLast + delta }
  let t := goSub now s1.counterTime
  if half < t then
    { s1 with
      counterLastTenRates := rateFlushStep s1.counterLastTenRates
        (goDiv ((s1.counterNumSinceLast : ℤ) : ℚ) t),
      counterTime := now, counterNumSinceLast := 0 }
  else s1

/-- The percent/saucer-size computation of variant 1's `add` (lines
539-541).  `goDiv` by `c.max = 0` would model Go's `NaN`; `add` never
reaches this step with `c.max ≤ 0`. -/
def percentStep (c : Config) (s : State) : State :=
  let percent := goDiv ((s.currentNum : ℤ) : ℚ) ((c.max : ℤ) : ℚ)
  { s with
    currentSaucerSize := goTrunc (goMul percent ((c.width : ℤ) : ℚ)),
    currentPercent := goTrunc (goMul percent 100) }

/-- `add` of variant 1 (progressbar.go lines 507-555). -/
def add (line : Line) (c : Config) (now : ℚ) (delta : ℤ) (s : State) : AddRes State :=
  if c.invisible then ⟨s, none, false⟩
  else if c.max ≤ 0 then ⟨s, some "max must be greater than 0", false⟩
  else
    let s1 := counterStep c delta s
    let s2 : State := { s1 with currentBytes := goAdd s1.currentBytes ((delta : ℤ) : ℚ) }
    let s3 := if ¬c.totalRate then rateStep now delta s2 else s2
    let s4 := percentStep c s3
    let oldLast := s4.lastPercent
    let s5 : State := { s4 with lastPercent := s4.currentPercent }
    if c.max < s5.currentNum then ⟨s5, some "current number exceeds max", false⟩
    else if renderCond c.showIterationsPerSecond c.showIterationsCount
        oldLast s5.currentPercent delta then
      ⟨render line c now s5, none, true⟩
    else ⟨s5, none, false⟩

/-- The state `getBasicState` plus the constructor's tail produce
(lines 292-343, with `renderWithBlankState` at its default `false`). -/
def initState (t0 : ℚ) : State :=
  { currentNum := 0, currentPercent := 0, lastPercent := 0, currentSaucerSize := 0,
    lastShown := t0, startTime := t0, counterTime := t0, counterNumSinceLast := 0,
    counterLastTenRates := [], maxLineWidth := 0, currentBytes := 0,
    finished := false, stopped := false, rendered := "", out := [] }

/-- The configuration `NewOptions64 max` builds with no options
(lines 292-335): defaults of variant 1. -/
def mkConfig (max : ℤ) : Config :=
  { max := max, width := 40, invisible := false, ignoreLength := false,
    totalRate := false, showIterationsPerSecond := false, showIterationsCount := false,
    throttleDuration := 0, useANSICodes := false, clearOnFinish := false }

/-- Run a sequence of `Add64` calls, each given as (call time, delta);
errors are ignored by the caller, as Go callers may. -/
def runAdds (line : Line) (c : Config) (calls : List (ℚ × ℤ)) (s : State) : State :=
  calls.foldl (fun st p => (add line c p.1 p.2 st).state) s

end V1

/-- A trivial concrete line composer, used to instantiate the
`∀ line` theorems in closed witnesses and counterexamples. -/
def constLine1 : V1.Line := fun _ _ _ => ("", 0)

namespace V2

/-- Configuration fields of variant 2 that its `add`/`render`/`setMax`
control flow reads (progressbar.go lines 1136-1190).  Purely decorative
fields are consumed only by the abstract line composer. -/
structure Config where
  max : ℤ
  width : ℤ
  visible : Bool
  ignoreLength : Bool
  totalRate : Bool
  showIterationsPerSecond : Bool
  showIterationsCount : Bool
  throttleInterval : ℚ
  useANSICodes : Bool
  clearOnFinish : Bool
  showBytes : Bool
  maxHumanized : String
  maxHumanizedSuffix : String
deriving DecidableEq

/-- Mutable state of variant 2 (progressbar.go lines 1114-1134), extended
with `out`, the list of strings written to the configured writer.
`counterTime` is `none` while the Go `time.Time` is its zero value
(`IsZero`), `some t` once set. -/
structure State where
  currentNum : ℤ
  currentPercent : ℤ
  lastPercent : ℤ
  currentSaucerSize : ℤ
  lastShown : ℚ
  startTime : ℚ
  counterTime : Option ℚ
  counterNumSinceLast : ℤ
  counterLastTenRates : List ℚ
  counterLastRatesIdx : ℕ
  maxLineWidth : ℤ
  currentBytes : ℚ
  finished : Bool
  stopped : Bool
  rendered : String
  out : List String
deriving DecidableEq

/-- A line composer for variant 2 (the two return values of
`renderProgressBar`, lines 1778-1987, whose layout content no settled
claim depends on). -/
abbrev Line := Config → State → ℚ → String × ℤ

/-- `writeString` of variant 2 (lines 2001-2015): a no-op when the bar is
not visible. -/
def writeOut (c : Config) (s : State) (str : String) : State :=
  if c.visible then { s with out := s.out ++ [str] } else s

/-- `clearProgressBar` of variant 2 (lines 1989-1999). -/
def clearBar (c : Config) (s : State) : State :=
  if s.maxLineWidth = 0 then s
  else if c.useANSICodes then writeOut c s "\x1b[2K\r"
  else writeOut c s ("\r" ++ strRepeat " " s.maxLineWidth ++ "\r")

/-- The effect of `renderProgressBar` of variant 2: compose the line,
record it in `rendered`, and write it (wrapped in ANSI control sequences
when `useANSICodes`, lines 1981-1984). -/
def renderBar (line : Line) (c : Config) (s : State) (now : ℚ) : ℤ × State :=
  let p := line c s now
  let sent := if c.useANSICodes then "\r" ++ p.1 ++ "\x1b[0K" else p.1
  (p.2, writeOut c { s with rendered := p.1 } sent)

/-- `render` of variant 2 (lines 1686-1712). -/
def render (line : Line) (c : Config) (now : ℚ) (s : State) : State :=
  let s1 := if ¬c.useANSICodes then clearBar c s else s
  let s2 :=
    if ¬s1.finished ∧ (c.max ≤ s1.currentNum ∨ s1.stopped) then { s1 with finished := true }
    else s1
  let p := renderBar line c s2 now
  let s3 := if s2.maxLineWidth < p.1 then { p.2 with maxLineWidth := p.1 } else p.2
  { s3 with lastShown := now }

/-- `addRate` of variant 2 (lines 1591-1601): append until the buffer holds
10 samples, then overwrite in ring fashion at `counterLastRatesIdx`. -/
def addRate (rate : ℚ) (s : State) : State :=
  if s.counterLastTenRates.length < 10 then
    { s with counterLastTenRates := s.counterLastTenRates ++ [rate] }
  else
    let l := s.counterLastTenRates.set s.counterLastRatesIdx rate
    let i := s.counterLastRatesIdx + 1
    { s with counterLastTenRates := l, counterLastRatesIdx := if i = 10 then 0 else i }

/-- The rolling-rate block of variant 2's `add` (lines 1552-1574).
`0.382` is the Go constant on line 1557. -/
def rateStep (now : ℚ) (s : State) : State :=
  match s.counterTime with
  | some ct =>
    if 0 < s.counterNumSinceLast then
      let t := goSub now ct
      if Rat.divInt 382 1000 < t ∨ s.counterLastTenRates.length = 0 then
        let s1 := addRate (goDiv ((s.counterNumSinceLast : ℤ) : ℚ) t) s
        { s1 with counterNumSinceLast := 0, counterTime := some now }
      else s
    else { s with counterTime := some now }
  | none =>
    let s1 : State := { s with counterLastTenRates := [] }
    let s2 :=
      if 0 < s1.counterNumSinceLast then
        let t := goSub now s1.startTime
        { (addRate (goDiv ((s1.counterNumSinceLast : ℤ) : ℚ) t) s1) with counterNumSinceLast := 0 }
      else s1
    { s2 with counterTime := some now }

/-- The percent/saucer-size computation of variant 2's `add` (lines
1576-1578).  `goDiv` by `c.max = 0` models Go's `NaN` as `0`; no settled
claim depends on the percent fields when `c.max = 0`. -/
def percentStep (c : Config) (s : State) : State :=
  let percent := goDiv ((s.currentNum : ℤ) : ℚ) ((c.max : ℤ) : ℚ)
  { s with
    currentSaucerSize := goTrunc (goMul percent ((c.width : ℤ) : ℚ)),
    currentPercent := goTrunc (goMul percent 100) }

/-- The throttle gate of variant 2's `add` (lines 1546-1550). -/
def throttled (c : Config) (now : ℚ) (s : State) : Prop :=
  0 < c.throttleInterval ∧ goSub now s.lastShown < c.throttleInterval ∧ s.currentNum < c.max

instance (c : Config) (now : ℚ) (s : State) : Decidable (throttled c now s) := by
  unfold throttled
  infer_instance

/-- The tail of variant 2's `add` after the counter mutation and bound
check (lines 1538-1588). -/
def addTail (line : Line) (c : Config) (now : ℚ) (delta : ℤ) (s : State) : AddRes State :=
  let s1 : State := { s with currentBytes := goAdd s.currentBytes ((delta : ℤ) : ℚ) }
  let s2 :=
    if ¬c.totalRate then { s1 with counterNumSinceLast := s1.counterNumSinceLast + delta }
    else s1
  if throttled c now s2 then ⟨s2, none, false⟩
  else
    let s3 := if ¬c.totalRate then rateStep now s2 else s2
    let s4 := percentStep c s3
    let oldLast := s4.lastPercent
    let s5 : State := { s4 with lastPercent := s4.currentPercent }
    if renderCond c.showIterationsPerSecond c.showIterationsCount
        oldLast s5.currentPercent delta then
      ⟨render line c now s5, none, true⟩
    else ⟨s5, none, false⟩

/-- `add` of variant 2 (progressbar.go lines 1528-1589). -/
def add (line : Line) (c : Config) (now : ℚ) (delta : ℤ) (s : State) : AddRes State :=
  let s0 : State := { s with currentNum := s.currentNum + delta }
  if c.ignoreLength then
    addTail line c now delta { s0 with currentNum := Int.tmod s0.currentNum c.max }
  else if c.max < s0.currentNum then ⟨s0, some "current number exceeds max", false⟩
  else addTail line c now delta s0

/-- Result of a `setMax` call: possibly-updated config, post-state and
returned error. -/
structure SetMaxRes where
  config : Config
  state : State
  err : Option String
deriving DecidableEq

/-- `setMax` of variant 2 (progressbar.go lines 1671-1681).  Note the
guard reads `p.config.max`, i.e. the *previous* maximum, not the new
argument. -/
def setMax (line : Line) (c : Config) (now : ℚ) (m : ℤ) (s : State) : SetMaxRes :=
  if c.max < 0 then ⟨c, s, some "max must be nonnegative"⟩
  else
    let c1 : Config := { c with max := m }
    let c2 :=
      if c1.showBytes then
        { c1 with maxHumanized := (humanizeBytes sizesV2 ((m : ℤ) : ℚ)).1,
                  maxHumanizedSuffix := (humanizeBytes sizesV2 ((m : ℤ) : ℚ)).2 }
      else c1
    let r := add line c2 now 0 s
    ⟨c2, r.state, r.err⟩

/-- `Reader.Read` of variant 2 (progressbar.go lines 2032-2038): the
underlying reader returned `n` bytes and error `rerr`; the byte count is
forwarded to the bar (its own error discarded) only when `rerr` is nil.
Returns the bar's new state together with the `(n, err)` the wrapper
itself returns. -/
def readerRead (line : Line) (c : Config) (now : ℚ) (s : State) (n : ℤ)
    (rerr : Option String) : State × ℤ × Option String :=
  if rerr = none then ((add line c now n s).state, n, rerr) else (s, n, rerr)

/-- The zero-value `state` struct as `New64` leaves it just before the
initial render (line 1397): only `startTime` is set. -/
def blankState (t0 : ℚ) : State :=
  { currentNum := 0, currentPercent := 0, lastPercent := 0, currentSaucerSize := 0,
    lastShown := 0, startTime := t0, counterTime := none, counterNumSinceLast := 0,
    counterLastTenRates := [], counterLastRatesIdx := 0, maxLineWidth := 0,
    currentBytes := 0, finished := false, stopped := false, rendered := "", out := [] }

/-- The configuration `New64 max` builds with no options (lines 1364-1394):
defaults of variant 2. -/
def mkConfig (max : ℤ) : Config :=
  { max := max, width := 40, visible := true, ignoreLength := false, totalRate := false,
    showIterationsPerSecond := false, showIterationsCount := false, throttleInterval := 0,
    useANSICodes := false, clearOnFinish := false, showBytes := false,
    maxHumanized := (humanizeBytes sizesV2 ((max : ℤ) : ℚ)).1,
    maxHumanizedSuffix := (humanizeBytes sizesV2 ((max : ℤ) : ℚ)).2 }

/-- The state of a freshly constructed variant-2 bar: `New64` performs one
initial render at `startTime` (line 1398). -/
def initState (line : Line) (c : Config) (t0 : ℚ) : State :=
  render line c t0 (blankState t0)

/-- Run a sequence of `Add64` calls, each given as (call time, delta);
errors are ignored by the caller, as Go callers may. -/
def runAdds (line : Line) (c : Config) (calls : List (ℚ × ℤ)) (s : State) : State :=
  calls.foldl (fun st p => (add line c p.1 p.2 st).state) s

end V2

/-- A trivial concrete variant-2 line composer for closed witnesses and
counterexamples. -/
def constLine2 : V2.Line := fun _ _ _ => ("", 0)

/-- Go helper `sp(s, p)` (lines 1056-1061 and 2093-2098): `s` if `p`,
otherwise the empty string. -/
def spStr (s : String) (p : Bool) : String := if p then s else ""

/-- The `spinners` table of variant 1 (lines 126-130), keyed by style. -/
def spinnersV1 (st : ℕ) : List String :=
  if st = 9 then ["|", "/", "-", "\\"]
  else if st = 14 then ["⠋", "⠙", "⠹", "⠸", "⠼", "⠴", "⠦", "⠧", "⠇", "⠏"]
  else if st = 59 then [".  ", ".. ", "...", " ..", "  .", "   "]
  else []

/-- The `spinners` table of variant 2 (lines 1203-1207), keyed by style. -/
def spinnersV2 (st : ℕ) : List String :=
  if st = 9 then ["|", "/", "-", "\\"]
  else if st = 14 then ["⠋", "⠙", "⠹", "⠸", "⠼", "⠴", "⠦", "⠧", "⠇", "⠏"]
  else if st = 59 then ["   ", ".  ", ":. ", "::.", ".::", " .:", "  .", "   "]
  else []

/-- `time.Duration.Milliseconds()` of a duration of `d` seconds:
truncating integer division of the nanosecond count. -/
def goMilliseconds (d : ℚ) : ℤ := goTrunc (goMul 1000 d)

/-- Variant 1's spinner frame index for elapsed time `t` seconds and cycle
length `n` (line 903-905): `dt := Milliseconds()/100`, then
`int(math.Round(math.Mod(float64(dt), float64(n))))`. -/
def spinnerIndexV1 (t : ℚ) (n : ℕ) : ℤ :=
  let dt : ℤ := Int.tdiv (goMilliseconds t) 100
  goTrunc (goRound (goFMod ((dt : ℤ) : ℚ) ((n : ℕ) : ℚ)))

/-- Variant 2's spinner frame index for elapsed time `t` seconds and cycle
length `n` (line 1925-1927): `dt := Seconds()`, then
`int(math.Mod(10*dt, float64(n)))`. -/
def spinnerIndexV2 (t : ℚ) (n : ℕ) : ℤ :=
  goTrunc (goFMod (goMul 10 t) ((n : ℕ) : ℚ))

/-- The spec's spinner frame formula: the frame at index
`floor(t in milliseconds / 100) mod cycle-length`. -/
def specSpinnerIndex (tms : ℚ) (n : ℕ) : ℤ := ⌊tms / 100⌋ % (n : ℤ)

/-- The common tail of both spinner branches: optional description,
optional parenthesised cluster `sbStr`, optional elapsed-time bracket
`[leftBrac]`, and the trailing space, exactly as concatenated in lines
906-912/915-921 and 1928-1934/1937-1943. -/
def spinnerTail (description sbStr leftBrac : String) (elapsedTime : Bool) : String :=
  spStr " " (description ≠ "") ++ description ++
    spStr " " (0 < sbStr.utf8ByteSize) ++ sbStr ++
    spStr " [" elapsedTime ++ spStr leftBrac elapsedTime ++ spStr "]" elapsedTime ++ " "

/-- The spinner branch of variant 1's `renderProgressBar` (lines 899-922),
as a function of the pieces composed earlier in that function
(`description`, the parenthesised cluster `sbStr`, the elapsed-time text
`leftBrac`). -/
def spinnerLineV1 (st : ℕ) (t : ℚ) (finished : Bool) (description sbStr leftBrac : String)
    (elapsedTime : Bool) : String :=
  if ¬finished then
    let frames := spinnersV1 st
    "\r " ++ frames.getD (spinnerIndexV1 t frames.length).toNat "" ++
      spinnerTail description sbStr leftBrac elapsedTime
  else
    "\r 100%" ++ spinnerTail description sbStr leftBrac elapsedTime

/-- The spinner branch of variant 2's `renderProgressBar` (lines
1923-1944), as a function of the pieces composed earlier in that
function. -/
def spinnerLineV2 (st : ℕ) (t : ℚ) (finished stopped : Bool)
    (description sbStr leftBrac : String) (elapsedTime : Bool) : String :=
  if ¬finished then
    let frames := spinnersV2 st
    " " ++ frames.getD (spinnerIndexV2 t frames.length).toNat "" ++
      spinnerTail description sbStr leftBrac elapsedTime
  else
    spStr "100%" (!stopped) ++ spinnerTail description sbStr leftBrac elapsedTime

namespace V2

/-- Variant 2's `add` returns either no error or the exceeds-max error;
in particular it can never return the "max must be nonnegative" message. -/
theorem add_err_cases (line : Line) (c : Config) (now : ℚ) (delta : ℤ) (s : State) :
    (add line c now delta s).err = none ∨
      (add line c now delta s).err = some "current number exceeds max" := by
  unfold add addTail
  simp only [apply_ite (fun r : AddRes State => r.err)]
  split_ifs <;> simp

end V2

/-- C8: `SetMax`/`SetMax64` of variant 2 validate the bar's previous
maximum rather than the new value: with a nonnegative current `max`,
calling `setMax` with a negative argument `m` never returns the
"max must be nonnegative" error and leaves the configured maximum at the
negative value `m`. -/
theorem c8_setmax_validates_previous_max (line : V2.Line) (c : V2.Config) (now : ℚ)
    (m : ℤ) (s : V2.State) (hold : 0 ≤ c.max) (hm : m < 0) :
    (V2.setMax line c now m s).config.max = m ∧ (V2.setMax line c now m s).config.max < 0 ∧
      (V2.setMax line c now m s).err ≠ some "max must be nonnegative" := by
  unfold V2.setMax
  rw [if_neg (not_lt.mpr hold)]
  dsimp only
  refine ⟨?_, ?_, ?_⟩
  · split_ifs <;> rfl
  · split_ifs <;> exact hm
  · split_ifs with h
    · rcases V2.add_err_cases line _ now 0 s with h' | h' <;> rw [h'] <;> decide
    · rcases V2.add_err_cases line _ now 0 s with h' | h' <;> rw [h'] <;> decide

/-- Witness for C8 at a concrete input: a fresh variant-2 bar with max 5,
`SetMax(-3)`. -/
theorem c8_witness :
    (0 : ℤ) ≤ (V2.mkConfig 5).max ∧ (-3 : ℤ) < 0 ∧
      ((V2.setMax constLine2 (V2.mkConfig 5) 0 (-3)
          (V2.initState constLine2 (V2.mkConfig 5) 0)).config.max = -3 ∧
        (V2.setMax constLine2 (V2.mkConfig 5) 0 (-3)
          (V2.initState constLine2 (V2.mkConfig 5) 0)).config.max < 0 ∧
        (V2.setMax constLine2 (V2.mkConfig 5) 0 (-3)
          (V2.initState constLine2 (V2.mkConfig 5) 0)).err ≠ some "max must be nonnegative") :=
  ⟨by decide, by decide,
    c8_setmax_validates_previous_max constLine2 (V2.mkConfig 5) 0 (-3)
      (V2.initState constLine2 (V2.mkConfig 5) 0) (by decide) (by decide)⟩

/-- C9: variant 2's `Reader.Read` forwards the byte count `n` into the
bar's `Add` exactly when the underlying reader's error is nil; when the
underlying read returns any non-nil error (even with `n > 0`), the bar's
state is untouched. -/
theorem c9_reader_read_forwards_only_on_nil_error (line : V2.Line) (c : V2.Config)
    (now : ℚ) (s : V2.State) (n : ℤ) (rerr : Option String) :
    (rerr = none →
      V2.readerRead line c now s n rerr = ((V2.add line c now n s).state, n, rerr)) ∧
    (rerr ≠ none → V2.readerRead line c now s n rerr = (s, n, rerr)) := by
  constructor
  · intro h
    unfold V2.readerRead
    rw [if_pos h]
  · intro h
    unfold V2.readerRead
    rw [if_neg h]

/-- Witness for C9 at a concrete input: a final chunk of 4 bytes delivered
together with EOF is not added to a fresh bar with max 10. -/
theorem c9_witness :
    V2.readerRead constLine2 (V2.mkConfig 10) 0
      (V2.initState constLine2 (V2.mkConfig 10) 0) 4 (some "EOF") =
      (V2.initState constLine2 (V2.mkConfig 10) 0, 4, some "EOF") :=
  (c9_reader_read_forwards_only_on_nil_error constLine2 (V2.mkConfig 10) 0
    (V2.initState constLine2 (V2.mkConfig 10) 0) 4 (some "EOF")).2 (by decide)

/-! ### C5: rolling-rate buffer capacity and FIFO eviction -/

/-- The most recent `n` entries of `l` (oldest first). -/
def lastN (n : ℕ) (l : List ℚ) : List ℚ := l.drop (l.length - n)

/-- Contents of variant 2's ring buffer in arrival order (oldest first):
while filling, the list itself; once full, the oldest sample sits at the
write index `i`. -/
def ringList (l : List ℚ) (i : ℕ) : List ℚ :=
  if l.length < 10 then l else l.drop i ++ l.take i

/-- Shape invariant of variant 2's ring buffer: while filling the write
index is 0; once full it stays within the buffer. -/
def ringInv (l : List ℚ) (i : ℕ) : Prop :=
  (l.length < 10 ∧ i = 0) ∨ (l.length = 10 ∧ i < 10)

theorem ringInv_le {l : List ℚ} {i : ℕ} (h : ringInv l i) : l.length ≤ 10 := by
  rcases h with ⟨h1, _⟩ | ⟨h1, _⟩ <;> omega

theorem ringList_length (l : List ℚ) (i : ℕ) (h : i ≤ l.length) :
    (ringList l i).length = l.length := by
  unfold ringList
  split_ifs
  · rfl
  · simp only [List.length_append, List.length_drop, List.length_take]
    omega

theorem lastN_of_le {l : List ℚ} (h : l.length ≤ 10) : lastN 10 l = l := by
  unfold lastN
  rw [Nat.sub_eq_zero_of_le h, List.drop_zero]

theorem lastN_drop (z : List ℚ) (k : ℕ) (h : k + 10 ≤ z.length) :
    lastN 10 (z.drop k) = lastN 10 z := by
  unfold lastN
  rw [List.length_drop, List.drop_drop]
  congr 1
  omega

theorem rateFlushStep_length {l : List ℚ} (h : l.length ≤ 10) (r : ℚ) :
    (V1.rateFlushStep l r).length ≤ 10 := by
  unfold V1.rateFlushStep
  dsimp only
  split_ifs with h1
  · simp only [List.length_drop, List.length_append, List.length_singleton]
    omega
  · simp only [List.length_append, List.length_singleton] at h1 ⊢
    omega

theorem rateFlushStep_full {l : List ℚ} (h : l.length = 10) (r : ℚ) :
    V1.rateFlushStep l r = l.drop 1 ++ [r] := by
  unfold V1.rateFlushStep
  dsimp only
  rw [if_pos (by simp [h]), List.drop_append_of_le_length (by omega)]

theorem rateFlushStep_notFull {l : List ℚ} (h : l.length < 10) (r : ℚ) :
    V1.rateFlushStep l r = l ++ [r] := by
  unfold V1.rateFlushStep
  dsimp only
  rw [if_neg (by simp only [List.length_append, List.length_singleton]; omega)]

theorem foldl_rateFlushStep (rs : List ℚ) :
    ∀ l : List ℚ, l.length ≤ 10 → rs.foldl V1.rateFlushStep l = lastN 10 (l ++ rs) := by
  induction rs with
  | nil =>
    intro l h
    simp only [List.foldl_nil, List.append_nil]
    exact (lastN_of_le h).symm
  | cons r rs ih =>
    intro l h
    rw [List.foldl_cons]
    rcases lt_or_eq_of_le h with hlt | hfull
    · have hlen : (l ++ [r]).length ≤ 10 := by
        simp only [List.length_append, List.length_singleton]
        omega
      rw [rateFlushStep_notFull hlt, ih _ hlen, List.append_assoc, List.singleton_append]
    · have hlen : (l.drop 1 ++ [r]).length ≤ 10 := by
        simp only [List.length_append, List.length_drop, List.length_singleton]
        omega
      rw [rateFlushStep_full hfull, ih _ hlen]
      have hz : (l.drop 1 ++ [r]) ++ rs = (l ++ r :: rs).drop 1 := by
        rw [List.append_assoc, List.singleton_append,
          List.drop_append_of_le_length (by omega)]
      have hzl : 1 + 10 ≤ (l ++ r :: rs).length := by
        simp only [List.length_append, List.length_cons]
        omega
      rw [hz, lastN_drop _ 1 hzl]

theorem addRate_spec (s : V2.State) (r : ℚ)
    (hinv : ringInv s.counterLastTenRates s.counterLastRatesIdx) :
    ringInv (V2.addRate r s).counterLastTenRates (V2.addRate r s).counterLastRatesIdx ∧
      (V2.addRate r s).counterLastTenRates.length ≤ 10 ∧
      (s.counterLastTenRates.length = 10 →
        ringList (V2.addRate r s).counterLastTenRates (V2.addRate r s).counterLastRatesIdx =
          (ringList s.counterLastTenRates s.counterLastRatesIdx).drop 1 ++ [r]) ∧
      (s.counterLastTenRates.length < 10 →
        ringList (V2.addRate r s).counterLastTenRates (V2.addRate r s).counterLastRatesIdx =
          ringList s.counterLastTenRates s.counterLastRatesIdx ++ [r]) := by
  set l := s.counterLastTenRates with hl
  set i := s.counterLastRatesIdx with hi
  rcases hinv with ⟨hlen, hidx⟩ | ⟨hlen, hidx⟩
  · -- filling phase: append, index stays 0
    unfold V2.addRate
    rw [if_pos (by rw [← hl]; exact hlen)]
    dsimp only
    rw [← hl, ← hi]
    refine ⟨?_, ?_, ?_, ?_⟩
    · unfold ringInv
      simp only [List.length_append, List.length_singleton]
      omega
    · simp only [List.length_append, List.length_singleton]
      omega
    · intro habs
      omega
    · intro _
      unfold ringList
      rw [if_pos hlen]
      split_ifs with h2
      · rfl
      · simp only [List.length_append, List.length_singleton] at h2
        have h10 : (l ++ [r]).length = 10 := by
          simp only [List.length_append, List.length_singleton]
          omega
        rw [hidx, List.drop_zero, List.take_zero, List.append_nil]
  · -- full: overwrite at the write index, advance it cyclically
    unfold V2.addRate
    rw [if_neg (by rw [← hl]; omega)]
    dsimp only
    rw [← hl, ← hi]
    have hset : l.set i r = l.take i ++ r :: l.drop (i + 1) :=
      List.set_eq_take_cons_drop r (by omega)
    have hsetlen : (l.set i r).length = 10 := by
      rw [List.length_set, hlen]
    have hti : (l.take i).length = i := by
      rw [List.length_take]
      omega
    have hringfull : ringList l i = l.drop i ++ l.take i := by
      unfold ringList
      rw [if_neg (by omega)]
    have hdropset : (l.set i r).drop (i + 1) = l.drop (i + 1) := by
      rw [hset, List.drop_append_eq_append_drop, hti,
        List.drop_of_length_le (hti.le.trans (by omega))]
      have h1 : i + 1 - i = 1 := by omega
      rw [h1, List.nil_append, List.drop_one, List.tail_cons]
    have htakeset : (l.set i r).take (i + 1) = l.take i ++ [r] := by
      rw [hset, List.take_append_eq_append_take, hti,
        List.take_of_length_le (hti.le.trans (by omega))]
      have h1 : i + 1 - i = 1 := by omega
      rw [h1]
      simp
    have hdrop1 : (ringList l i).drop 1 = l.drop (i + 1) ++ l.take i := by
      rw [hringfull, List.drop_append_of_le_length (by rw [List.length_drop]; omega),
        List.drop_drop]
    refine ⟨?_, ?_, ?_, ?_⟩
    · unfold ringInv
      rw [hsetlen]
      split_ifs with hc <;> omega
    · rw [hsetlen]
    · intro _
      have hnewlen : ¬(l.set i r).length < 10 := by
        rw [hsetlen]
        omega
      rw [hdrop1]
      unfold ringList
      rw [if_neg hnewlen]
      split_ifs with hc
      · -- wrapped: i + 1 = 10, new write index 0
        rw [List.drop_zero, List.take_zero, List.append_nil, hset]
        have hd : l.drop (i + 1) = [] := List.drop_of_length_le (by omega)
        rw [hd, List.nil_append]
      · -- no wrap: new write index i + 1
        rw [hdropset, htakeset, ← List.append_assoc]
    · intro habs
      omega

theorem foldl_addRate (rs : List ℚ) :
    ∀ s : V2.State, ringInv s.counterLastTenRates s.counterLastRatesIdx →
      ringInv (rs.foldl (fun st r => V2.addRate r st) s).counterLastTenRates
        (rs.foldl (fun st r => V2.addRate r st) s).counterLastRatesIdx ∧
      ringList (rs.foldl (fun st r => V2.addRate r st) s).counterLastTenRates
          (rs.foldl (fun st r => V2.addRate r st) s).counterLastRatesIdx =
        lastN 10 (ringList s.counterLastTenRates s.counterLastRatesIdx ++ rs) := by
  induction rs with
  | nil =>
    intro s hinv
    refine ⟨hinv, ?_⟩
    rw [List.foldl_nil, List.append_nil]
    exact (lastN_of_le (by
      rw [ringList_length _ _ (by rcases hinv with ⟨h1, h2⟩ | ⟨h1, h2⟩ <;> omega)]
      exact ringInv_le hinv)).symm
  | cons r rs ih =>
    intro s hinv
    rw [List.foldl_cons]
    obtain ⟨hinv', _, hfull, hpart⟩ := addRate_spec s r hinv
    obtain ⟨hinvf, heq⟩ := ih (V2.addRate r s) hinv'
    refine ⟨hinvf, ?_⟩
    rw [heq]
    have hrl : (ringList s.counterLastTenRates s.counterLastRatesIdx).length =
        s.counterLastTenRates.length :=
      ringList_length _ _ (by rcases hinv with ⟨h1, h2⟩ | ⟨h1, h2⟩ <;> omega)
    rcases lt_or_eq_of_le (ringInv_le hinv) with hlt | heq10
    · rw [hpart hlt, List.append_assoc, List.singleton_append]
    · have h10 : s.counterLastTenRates.length = 10 := heq10
      rw [hfull h10]
      have hz : ((ringList s.counterLastTenRates s.counterLastRatesIdx).drop 1 ++ [r]) ++ rs =
          ((ringList s.counterLastTenRates s.counterLastRatesIdx) ++ r :: rs).drop 1 := by
        rw [List.append_assoc, List.singleton_append,
          List.drop_append_of_le_length (by omega)]
      rw [hz, lastN_drop _ 1 (by
        simp only [List.length_append, List.length_cons]
        omega)]

/-- C5: after every sequence of operations the rolling-rate sample buffer
holds at most 10 samples, and once full each newly flushed sample replaces
the oldest buffered one (FIFO).  Variant 1 appends then drops the head
(`rateFlushStep`, inlined in `add`); variant 2 overwrites at a cyclic
write index (`addRate`); in both, a sequence of flushed samples leaves
exactly the most recent (at most) 10, oldest first. -/
theorem c5_rate_buffer_capacity_fifo :
    (∀ (l : List ℚ) (r : ℚ), l.length ≤ 10 →
      (V1.rateFlushStep l r).length ≤ 10 ∧
        (l.length = 10 → V1.rateFlushStep l r = l.drop 1 ++ [r])) ∧
    (∀ rs : List ℚ, rs.foldl V1.rateFlushStep [] = lastN 10 rs) ∧
    (∀ (s : V2.State) (r : ℚ), ringInv s.counterLastTenRates s.counterLastRatesIdx →
      (V2.addRate r s).counterLastTenRates.length ≤ 10 ∧
        (s.counterLastTenRates.length = 10 →
          ringList (V2.addRate r s).counterLastTenRates
              (V2.addRate r s).counterLastRatesIdx =
            (ringList s.counterLastTenRates s.counterLastRatesIdx).drop 1 ++ [r])) ∧
    (∀ (rs : List ℚ) (s : V2.State), s.counterLastTenRates = [] →
      s.counterLastRatesIdx = 0 →
      (rs.foldl (fun st r => V2.addRate r st) s).counterLastTenRates.length ≤ 10 ∧
        ringList (rs.foldl (fun st r => V2.addRate r st) s).counterLastTenRates
            (rs.foldl (fun st r => V2.addRate r st) s).counterLastRatesIdx =
          lastN 10 rs) := by
  refine ⟨?_, ?_, ?_, ?_⟩
  · intro l r h
    exact ⟨rateFlushStep_length h r, fun h10 => rateFlushStep_full h10 r⟩
  · intro rs
    have h := foldl_rateFlushStep rs [] (by simp)
    simpa using h
  · intro s r hinv
    obtain ⟨_, hlen, hfull, _⟩ := addRate_spec s r hinv
    exact ⟨hlen, hfull⟩
  · intro rs s hemp hidx
    have hinv : ringInv s.counterLastTenRates s.counterLastRatesIdx := by
      unfold ringInv
      rw [hemp, hidx]
      left
      simp
    obtain ⟨hinvf, heq⟩ := foldl_addRate rs s hinv
    refine ⟨ringInv_le hinvf, ?_⟩
    rw [heq]
    unfold ringList
    rw [hemp]
    simp

/-- Witness for C5 at concrete inputs: a full variant-1 buffer `[1..10]`
flushing sample 11 evicts `1`; folding 12 samples into variant 2's empty
ring leaves exactly the last 10. -/
theorem c5_witness :
    ((1 : ℚ) :: [2, 3, 4, 5, 6, 7, 8, 9, 10] : List ℚ).length ≤ 10 ∧
      (V1.rateFlushStep [1, 2, 3, 4, 5, 6, 7, 8, 9, 10] 11).length ≤ 10 ∧
      V1.rateFlushStep [1, 2, 3, 4, 5, 6, 7, 8, 9, 10] 11 =
        [2, 3, 4, 5, 6, 7, 8, 9, 10, 11] ∧
      ([3, 4, 5, 6, 7, 8, 9, 10, 11, 12] : List ℚ).foldl V1.rateFlushStep [] =
        lastN 10 [3, 4, 5, 6, 7, 8, 9, 10, 11, 12] := by
  have h1 := c5_rate_buffer_capacity_fifo.1 [1, 2, 3, 4, 5, 6, 7, 8, 9, 10] 11 (by decide)
  have h2 := c5_rate_buffer_capacity_fifo.2.1 [3, 4, 5, 6, 7, 8, 9, 10, 11, 12]
  exact ⟨by decide, h1.1, by rw [h1.2 (by decide)]; decide, h2⟩

/-! ### Field-preservation lemmas for the two `add` pipelines -/

namespace V1

theorem clearBar_currentNum (c : Config) (s : State) :
    (clearBar c s).currentNum = s.currentNum := by
  unfold clearBar writeOut
  split_ifs <;> rfl

theorem renderBar_currentNum (line : Line) (c : Config) (s : State) (now : ℚ) :
    (renderBar line c s now).2.currentNum = s.currentNum := rfl

theorem render_currentNum (line : Line) (c : Config) (now : ℚ) (s : State) :
    (render line c now s).currentNum = s.currentNum := by
  unfold render
  split_ifs <;>
    simp only [renderBar_currentNum, clearBar_currentNum, V1.renderBar, V1.writeOut] <;>
    split_ifs <;>
    simp only [clearBar_currentNum]

theorem rateStep_currentNum (now : ℚ) (delta : ℤ) (s : State) :
    (rateStep now delta s).currentNum = s.currentNum := by
  unfold rateStep
  dsimp only
  split_ifs <;> rfl

theorem rateStep_out (now : ℚ) (delta : ℤ) (s : State) :
    (rateStep now delta s).out = s.out := by
  unfold rateStep
  dsimp only
  split_ifs <;> rfl

theorem percentStep_currentNum (c : Config) (s : State) :
    (percentStep c s).currentNum = s.currentNum := rfl

theorem percentStep_out (c : Config) (s : State) : (percentStep c s).out = s.out := rfl

/-- Observable behavior of variant 1's `add` on a visible, positive-max,
non-spinner bar: the counter is mutated only while strictly below max; the
exceeds-max error is returned exactly when the possibly-mutated counter
exceeds max, and in that case nothing is rendered or written. -/
theorem add_spec (line : Line) (c : Config) (now : ℚ) (delta : ℤ) (s : State)
    (hvis : c.invisible = false) (hmax : 0 < c.max) (hig : c.ignoreLength = false) :
    (add line c now delta s).state.currentNum =
      (if s.currentNum < c.max then s.currentNum + delta else s.currentNum) ∧
    (add line c now delta s).err =
      (if c.max < (if s.currentNum < c.max then s.currentNum + delta else s.currentNum) then
        some "current number exceeds max" else none) ∧
    (c.max < (if s.currentNum < c.max then s.currentNum + delta else s.currentNum) →
      (add line c now delta s).rendered = false ∧ (add line c now delta s).state.out = s.out) := by
  unfold add
  rw [if_neg (by simp [hvis]), if_neg (by omega)]
  dsimp only
  unfold counterStep
  rw [hig]
  simp only [Bool.false_eq_true, if_false]
  set s1 := (if s.currentNum < c.max then { s with currentNum := s.currentNum + delta } else s)
    with hs1
  have hs1num : s1.currentNum =
      (if s.currentNum < c.max then s.currentNum + delta else s.currentNum) := by
    rw [hs1]
    split_ifs <;> rfl
  have hs1out : s1.out = s.out := by
    rw [hs1]
    split_ifs <;> rfl
  set s3 := (if ¬c.totalRate = true then
      rateStep now delta { s1 with currentBytes := goAdd s1.currentBytes ((delta : ℤ) : ℚ) }
    else { s1 with currentBytes := goAdd s1.currentBytes ((delta : ℤ) : ℚ) }) with hs3
  have hs3num : s3.currentNum = s1.currentNum := by
    rw [hs3]
    split_ifs <;> simp only [rateStep_currentNum]
  have hs3out : s3.out = s1.out := by
    rw [hs3]
    split_ifs <;> simp only [rateStep_out]
  refine ⟨?_, ?_, ?_⟩
  · simp only [apply_ite (fun r : AddRes State => r.state), apply_ite State.currentNum,
      render_currentNum, percentStep_currentNum, hs3num, hs1num, ite_self]
  · simp only [apply_ite (fun r : AddRes State => r.err), percentStep_currentNum, hs3num,
      hs1num, ite_self]
  · intro hover
    constructor
    · simp only [apply_ite (fun r : AddRes State => r.rendered), percentStep_currentNum,
        hs3num, hs1num]
      rw [if_pos hover]
    · simp only [apply_ite (fun r : AddRes State => r.state.out), percentStep_currentNum,
        percentStep_out, hs3num, hs3out, hs1num, hs1out]
      rw [if_pos hover]

end V1

namespace V2

theorem clearBar_currentNum2 (c : Config) (s : State) :
    (clearBar c s).currentNum = s.currentNum := by
  unfold clearBar writeOut
  split_ifs <;> rfl

theorem renderBar_currentNum2 (line : Line) (c : Config) (s : State) (now : ℚ) :
    (renderBar line c s now).2.currentNum = s.currentNum := by
  unfold renderBar writeOut
  dsimp only
  split_ifs <;> rfl

theorem render_currentNum2 (line : Line) (c : Config) (now : ℚ) (s : State) :
    (render line c now s).currentNum = s.currentNum := by
  unfold render
  dsimp only
  split_ifs <;>
    simp only [renderBar_currentNum2, clearBar_currentNum2]

theorem addRate_currentNum (r : ℚ) (s : State) : (addRate r s).currentNum = s.currentNum := by
  unfold addRate
  dsimp only
  split_ifs <;> rfl

theorem rateStep_currentNum2 (now : ℚ) (s : State) :
    (rateStep now s).currentNum = s.currentNum := by
  unfold rateStep
  rcases s.counterTime with _ | ct <;>
    dsimp only <;>
    split_ifs <;>
    simp only [addRate_currentNum]

theorem percentStep_currentNum2 (c : Config) (s : State) :
    (percentStep c s).currentNum = s.currentNum := rfl

/-- The counter after variant 2's `addTail` is untouched. -/
theorem addTail_currentNum (line : Line) (c : Config) (now : ℚ) (delta : ℤ) (s : State) :
    (addTail line c now delta s).state.currentNum = s.currentNum := by
  unfold addTail
  dsimp only
  simp only [apply_ite (fun r : AddRes State => r.state), apply_ite State.currentNum,
    render_currentNum2, percentStep_currentNum2, rateStep_currentNum2, ite_self]

/-- `addTail` itself never produces an error. -/
theorem addTail_err (line : Line) (c : Config) (now : ℚ) (delta : ℤ) (s : State) :
    (addTail line c now delta s).err = none := by
  unfold addTail
  dsimp only
  simp only [apply_ite (fun r : AddRes State => r.err), ite_self]

/-- Observable behavior of variant 2's `add` on a non-spinner bar: the
counter is mutated unconditionally (even when the bound check then fails);
the exceeds-max error is returned exactly when the mutated counter exceeds
max, and in that case nothing is rendered or written. -/
theorem add_spec2 (line : Line) (c : Config) (now : ℚ) (delta : ℤ) (s : State)
    (hig : c.ignoreLength = false) :
    (add line c now delta s).state.currentNum = s.currentNum + delta ∧
    (add line c now delta s).err =
      (if c.max < s.currentNum + delta then some "current number exceeds max" else none) ∧
    (c.max < s.currentNum + delta →
      (add line c now delta s).rendered = false ∧ (add line c now delta s).state.out = s.out) := by
  unfold add
  rw [if_neg (by simp [hig])]
  dsimp only
  split_ifs with h1
  · exact ⟨rfl, rfl, fun _ => ⟨rfl, rfl⟩⟩
  · refine ⟨?_, ?_, fun hover => absurd hover h1⟩
    · rw [addTail_currentNum]
    · rw [addTail_err]

end V2

/-! ### C1, C2, C10: counter accumulation and bound checks -/

/-- Sum of the deltas of a call sequence. -/
def deltaSum (calls : List (ℚ × ℤ)) : ℤ := (calls.map Prod.snd).sum

theorem deltaSum_cons (p : ℚ × ℤ) (rest : List (ℚ × ℤ)) :
    deltaSum (p :: rest) = p.2 + deltaSum rest := by
  unfold deltaSum
  rw [List.map_cons, List.sum_cons]

theorem runAdds_cons_v1 (line : V1.Line) (c : V1.Config) (p : ℚ × ℤ)
    (rest : List (ℚ × ℤ)) (s : V1.State) :
    V1.runAdds line c (p :: rest) s =
      V1.runAdds line c rest (V1.add line c p.1 p.2 s).state := rfl

theorem runAdds_cons_v2 (line : V2.Line) (c : V2.Config) (p : ℚ × ℤ)
    (rest : List (ℚ × ℤ)) (s : V2.State) :
    V2.runAdds line c (p :: rest) s =
      V2.runAdds line c rest (V2.add line c p.1 p.2 s).state := rfl

/-- Variant 1: under nonnegative deltas whose running sums stay within
max, the counter accumulates exactly. -/
theorem runAdds_currentNum_v1 (line : V1.Line) (c : V1.Config)
    (hvis : c.invisible = false) (hmax : 0 < c.max) (hig : c.ignoreLength = false) :
    ∀ (calls : List (ℚ × ℤ)) (s : V1.State), s.currentNum ≤ c.max →
      (∀ p ∈ calls, 0 ≤ p.2) →
      (∀ n ≤ calls.length, s.currentNum + deltaSum (calls.take n) ≤ c.max) →
      (V1.runAdds line c calls s).currentNum = s.currentNum + deltaSum calls := by
  intro calls
  induction calls with
  | nil =>
    intro s _ _ _
    show s.currentNum = s.currentNum + deltaSum []
    unfold deltaSum
    simp
  | cons p rest ih =>
    intro s hle hnn hpre
    have hδ : 0 ≤ p.2 := hnn p (List.mem_cons_self _ _)
    have h1 : s.currentNum + p.2 ≤ c.max := by
      have h := hpre 1 (by simp)
      rw [show List.take 1 (p :: rest) = [p] from rfl, deltaSum_cons] at h
      have hz : deltaSum ([] : List (ℚ × ℤ)) = 0 := rfl
      omega
    have hpre' : ∀ n ≤ rest.length,
        (s.currentNum + p.2) + deltaSum (rest.take n) ≤ c.max := by
      intro n hn
      have h := hpre (n + 1) (by simpa using Nat.succ_le_succ hn)
      rw [show List.take (n + 1) (p :: rest) = p :: rest.take n from rfl,
        deltaSum_cons] at h
      omega
    have hstep := (V1.add_spec line c p.1 p.2 s hvis hmax hig).1
    rw [runAdds_cons_v1, deltaSum_cons]
    rcases lt_or_eq_of_le hle with hlt | heq
    · rw [if_pos hlt] at hstep
      rw [ih (V1.add line c p.1 p.2 s).state (by omega)
        (fun q hq => hnn q (List.mem_cons_of_mem _ hq))
        (fun n hn => by rw [hstep]; exact hpre' n hn), hstep]
      ring
    · have hz : p.2 = 0 := by omega
      rw [if_neg (by omega)] at hstep
      rw [ih (V1.add line c p.1 p.2 s).state (by omega)
        (fun q hq => hnn q (List.mem_cons_of_mem _ hq))
        (fun n hn => by rw [hstep]; have := hpre' n hn; omega), hstep]
      omega

/-- Variant 2: the counter accumulates exactly with no hypotheses at all
(the mutation precedes the bound check unconditionally). -/
theorem runAdds_currentNum_v2 (line : V2.Line) (c : V2.Config)
    (hig : c.ignoreLength = false) :
    ∀ (calls : List (ℚ × ℤ)) (s : V2.State),
      (V2.runAdds line c calls s).currentNum = s.currentNum + deltaSum calls := by
  intro calls
  induction calls with
  | nil =>
    intro s
    show s.currentNum = s.currentNum + deltaSum []
    unfold deltaSum
    simp
  | cons p rest ih =>
    intro s
    have hstep := (V2.add_spec2 line c p.1 p.2 s hig).1
    rw [runAdds_cons_v2, deltaSum_cons, ih, hstep]
    ring

/-- C1 (amended: additionally every delta is nonnegative; a variant-1 bar
whose counter has reached max silently discards a subsequent negative
delta, see `c1_counterexample`): starting from a freshly constructed bar
with max > 0, not in ignore-length mode, a sequence of Add/Add64 calls
with nonnegative deltas whose partial sums all stay ≤ max leaves the raw
counter exactly at the sum of the deltas, in both variants (variant 2
needs no hypotheses beyond non-spinner mode). -/
theorem c1_additive_accumulation (t0 : ℚ) (line1 : V1.Line) (line2 : V2.Line)
    (c1 : V1.Config) (c2 : V2.Config) (calls : List (ℚ × ℤ))
    (hvis : c1.invisible = false) (hmax : 0 < c1.max) (hig1 : c1.ignoreLength = false)
    (hig2 : c2.ignoreLength = false)
    (hnn : ∀ p ∈ calls, 0 ≤ p.2)
    (hpre : ∀ n ≤ calls.length, deltaSum (calls.take n) ≤ c1.max) :
    (V1.runAdds line1 c1 calls (V1.initState t0)).currentNum = deltaSum calls ∧
    ∀ s : V2.State, (V2.runAdds line2 c2 calls s).currentNum = s.currentNum + deltaSum calls := by
  constructor
  · have h := runAdds_currentNum_v1 line1 c1 hvis hmax hig1 calls (V1.initState t0)
      (by show (0 : ℤ) ≤ c1.max; omega) hnn
      (fun n hn => by
        show (0 : ℤ) + deltaSum (calls.take n) ≤ c1.max
        have := hpre n hn
        omega)
    rw [h]
    show (0 : ℤ) + deltaSum calls = deltaSum calls
    omega
  · intro s
    exact runAdds_currentNum_v2 line2 c2 hig2 calls s

/-- Counterexample to C1 as stated: on variant 1 with max = 2, the calls
Add(2); Add(-1) have all partial sums (0, 2, 1) ≤ 2, yet the final counter
is 2, not the exact sum 1 — the guard `currentNum < max` froze the counter
at max and dropped the negative delta. -/
theorem c1_counterexample :
    (∀ n ≤ ([((0 : ℚ), (2 : ℤ)), (0, -1)] : List (ℚ × ℤ)).length,
      deltaSum (([((0 : ℚ), (2 : ℤ)), (0, -1)] : List (ℚ × ℤ)).take n) ≤ (V1.mkConfig 2).max) ∧
    deltaSum [((0 : ℚ), (2 : ℤ)), (0, -1)] = 1 ∧
    (V1.runAdds constLine1 (V1.mkConfig 2) [((0 : ℚ), (2 : ℤ)), (0, -1)]
        (V1.initState 0)).currentNum = 2 := by
  exact ⟨by decide, by decide, by decide⟩

/-- Witness for C1 at a concrete input: two unit advances on bars with
max 2 leave both counters at exactly 2. -/
theorem c1_witness :
    (V1.runAdds constLine1 (V1.mkConfig 2) [((0 : ℚ), (1 : ℤ)), (0, 1)]
        (V1.initState 0)).currentNum = deltaSum [((0 : ℚ), (1 : ℤ)), (0, 1)] ∧
    (V2.runAdds constLine2 (V2.mkConfig 2) [((0 : ℚ), (1 : ℤ)), (0, 1)]
        (V2.blankState 0)).currentNum =
      (V2.blankState 0).currentNum + deltaSum [((0 : ℚ), (1 : ℤ)), (0, 1)] := by
  have h := c1_additive_accumulation 0 constLine1 constLine2 (V1.mkConfig 2) (V2.mkConfig 2)
    [((0 : ℚ), (1 : ℤ)), (0, 1)] (by decide) (by decide) (by decide) (by decide)
    (by decide) (by decide)
  exact ⟨h.1, h.2 (V2.blankState 0)⟩

/-- C2 (amended: the counter before the call must additionally be strictly
below max; a variant-1 bar already at max silently drops an over-max delta
without error, see `c2_counterexample`): on a visible bar with max > 0,
not in ignore-length mode, whose counter is below max, an Add whose delta
would push the counter above max returns the invalid-bound error, does
not invoke the render step, and writes nothing. -/
theorem c2_exceed_max_errors_without_render
    (line1 : V1.Line) (c1 : V1.Config) (now1 : ℚ) (d1 : ℤ) (s1 : V1.State)
    (line2 : V2.Line) (c2 : V2.Config) (now2 : ℚ) (d2 : ℤ) (s2 : V2.State)
    (hvis : c1.invisible = false) (hmax1 : 0 < c1.max) (hig1 : c1.ignoreLength = false)
    (hlt1 : s1.currentNum < c1.max) (hover1 : c1.max < s1.currentNum + d1)
    (hig2 : c2.ignoreLength = false) (hlt2 : s2.currentNum < c2.max)
    (hover2 : c2.max < s2.currentNum + d2) :
    ((V1.add line1 c1 now1 d1 s1).err = some "current number exceeds max" ∧
      (V1.add line1 c1 now1 d1 s1).rendered = false ∧
      (V1.add line1 c1 now1 d1 s1).state.out = s1.out) ∧
    ((V2.add line2 c2 now2 d2 s2).err = some "current number exceeds max" ∧
      (V2.add line2 c2 now2 d2 s2).rendered = false ∧
      (V2.add line2 c2 now2 d2 s2).state.out = s2.out) := by
  obtain ⟨h1n, h1e, h1r⟩ := V1.add_spec line1 c1 now1 d1 s1 hvis hmax1 hig1
  obtain ⟨h2n, h2e, h2r⟩ := V2.add_spec2 line2 c2 now2 d2 s2 hig2
  rw [if_pos hlt1] at h1e h1r
  constructor
  · exact ⟨by rw [h1e, if_pos hover1], (h1r hover1).1, (h1r hover1).2⟩
  · exact ⟨by rw [h2e, if_pos hover2], (h2r hover2).1, (h2r hover2).2⟩

/-- Counterexample to C2 as stated: on variant 1 with max = 1, after
Add(1) the counter sits at max; a further Add(1) would push it to 2 > max,
yet the call returns no error — the guard `currentNum < max` skips both
the mutation and, since the counter never exceeds max, the bound check. -/
theorem c2_counterexample :
    (V1.mkConfig 1).max <
      (V1.add constLine1 (V1.mkConfig 1) 0 1 (V1.initState 0)).state.currentNum + 1 ∧
    (V1.add constLine1 (V1.mkConfig 1) 0 1
      (V1.add constLine1 (V1.mkConfig 1) 0 1 (V1.initState 0)).state).err = none := by
  decide

/-- Witness for C2 at a concrete input: Add(7) on fresh bars with max 5
(counter 0 < 5, 0 + 7 > 5). -/
theorem c2_witness :
    ((V1.add constLine1 (V1.mkConfig 5) 0 7 (V1.initState 0)).err =
        some "current number exceeds max" ∧
      (V1.add constLine1 (V1.mkConfig 5) 0 7 (V1.initState 0)).rendered = false ∧
      (V1.add constLine1 (V1.mkConfig 5) 0 7 (V1.initState 0)).state.out =
        (V1.initState 0).out) ∧
    ((V2.add constLine2 (V2.mkConfig 5) 0 7 (V2.blankState 0)).err =
        some "current number exceeds max" ∧
      (V2.add constLine2 (V2.mkConfig 5) 0 7 (V2.blankState 0)).rendered = false ∧
      (V2.add constLine2 (V2.mkConfig 5) 0 7 (V2.blankState 0)).state.out =
        (V2.blankState 0).out) :=
  c2_exceed_max_errors_without_render constLine1 (V1.mkConfig 5) 0 7 (V1.initState 0)
    constLine2 (V2.mkConfig 5) 0 7 (V2.blankState 0)
    (by decide) (by decide) (by decide) (by decide) (by decide)
    (by decide) (by decide) (by decide)

/-- C10 (amended: the counter before the call must additionally be
strictly below max; a variant-1 bar already at max discards the delta and
the counter stays at max, see `c10_counterexample`): Add performs no
lower-bound check — on a bar with max > 0, not in ignore-length mode,
whose counter is below max, a negative delta taking the counter below
zero returns no error and leaves the raw counter strictly negative, in
both variants. -/
theorem c10_no_lower_bound_check
    (line1 : V1.Line) (c1 : V1.Config) (now1 : ℚ) (d1 : ℤ) (s1 : V1.State)
    (line2 : V2.Line) (c2 : V2.Config) (now2 : ℚ) (d2 : ℤ) (s2 : V2.State)
    (hvis : c1.invisible = false) (hmax1 : 0 < c1.max) (hig1 : c1.ignoreLength = false)
    (hlt1 : s1.currentNum < c1.max) (hneg1 : d1 < 0) (hbelow1 : s1.currentNum + d1 < 0)
    (hmax2 : 0 < c2.max) (hig2 : c2.ignoreLength = false) (hneg2 : d2 < 0)
    (hbelow2 : s2.currentNum + d2 < 0) :
    ((V1.add line1 c1 now1 d1 s1).err = none ∧
      (V1.add line1 c1 now1 d1 s1).state.currentNum = s1.currentNum + d1 ∧
      (V1.add line1 c1 now1 d1 s1).state.currentNum < 0) ∧
    ((V2.add line2 c2 now2 d2 s2).err = none ∧
      (V2.add line2 c2 now2 d2 s2).state.currentNum = s2.currentNum + d2 ∧
      (V2.add line2 c2 now2 d2 s2).state.currentNum < 0) := by
  obtain ⟨h1n, h1e, _⟩ := V1.add_spec line1 c1 now1 d1 s1 hvis hmax1 hig1
  obtain ⟨h2n, h2e, _⟩ := V2.add_spec2 line2 c2 now2 d2 s2 hig2
  rw [if_pos hlt1] at h1n h1e
  refine ⟨⟨?_, ?_, ?_⟩, ?_, ?_, ?_⟩
  · rw [h1e, if_neg (by omega)]
  · exact h1n
  · omega
  · rw [h2e, if_neg (by omega)]
  · exact h2n
  · omega

/-- Counterexample to C10 as stated: on variant 1 with max = 1 and the
counter at max, Add(-6) (a negative delta whose magnitude exceeds the
counter) leaves the counter at 1, not strictly negative — the guard
`currentNum < max` discards the delta entirely. -/
theorem c10_counterexample :
    ((-6 : ℤ) < 0) ∧
    (V1.add constLine1 (V1.mkConfig 1) 0 1 (V1.initState 0)).state.currentNum < 6 ∧
    (V1.add constLine1 (V1.mkConfig 1) 0 (-6)
      (V1.add constLine1 (V1.mkConfig 1) 0 1 (V1.initState 0)).state).err = none ∧
    ¬((V1.add constLine1 (V1.mkConfig 1) 0 (-6)
      (V1.add constLine1 (V1.mkConfig 1) 0 1 (V1.initState 0)).state).state.currentNum < 0) := by
  decide

/-- Witness for C10 at a concrete input: Add(-7) on fresh bars with max 5
(counter 0 < 5, 0 + (-7) < 0) succeeds and leaves the counter at -7. -/
theorem c10_witness :
    ((V1.add constLine1 (V1.mkConfig 5) 0 (-7) (V1.initState 0)).err = none ∧
      (V1.add constLine1 (V1.mkConfig 5) 0 (-7) (V1.initState 0)).state.currentNum =
        (V1.initState 0).currentNum + (-7) ∧
      (V1.add constLine1 (V1.mkConfig 5) 0 (-7) (V1.initState 0)).state.currentNum < 0) ∧
    ((V2.add constLine2 (V2.mkConfig 5) 0 (-7) (V2.blankState 0)).err = none ∧
      (V2.add constLine2 (V2.mkConfig 5) 0 (-7) (V2.blankState 0)).state.currentNum =
        (V2.blankState 0).currentNum + (-7) ∧
      (V2.add constLine2 (V2.mkConfig 5) 0 (-7) (V2.blankState 0)).state.currentNum < 0) :=
  c10_no_lower_bound_check constLine1 (V1.mkConfig 5) 0 (-7) (V1.initState 0)
    constLine2 (V2.mkConfig 5) 0 (-7) (V2.blankState 0)
    (by decide) (by decide) (by decide) (by decide) (by decide) (by decide)
    (by decide) (by decide) (by decide) (by decide)

/-! ### C3: Add on a bar with max = 0 -/

/-- Variant 1's `add` with `max ≤ 0` on a visible bar: the invalid-bound
error, and the state — in particular the written output — is untouched. -/
theorem add_max_zero_v1 (line : V1.Line) (c : V1.Config) (now : ℚ) (delta : ℤ)
    (s : V1.State) (hvis : c.invisible = false) (hmax : c.max ≤ 0) :
    V1.add line c now delta s = ⟨s, some "max must be greater than 0", false⟩ := by
  unfold V1.add
  rw [if_neg (by simp [hvis]), if_pos hmax]

/-- C3 (amended: variant 1 behaves as claimed; variant 2 has no
`max ≤ 0` check at all — with max = 0 it fails with the *exceeds-max*
error exactly when the mutated counter is positive, and in particular
`Add(0)` on a fresh visible max-0 bar succeeds and performs a render that
writes a new frame): Add/Add64 on a bar with max = 0. -/
theorem c3_add_on_zero_max (line1 : V1.Line) (c1 : V1.Config) (now1 : ℚ) (d1 : ℤ)
    (s1 : V1.State) (line2 : V2.Line) (c2 : V2.Config) (now2 : ℚ) (d2 : ℤ)
    (s2 : V2.State) (hvis : c1.invisible = false) (hmax1 : c1.max = 0)
    (hig2 : c2.ignoreLength = false) (hmax2 : c2.max = 0) :
    (V1.add line1 c1 now1 d1 s1 = ⟨s1, some "max must be greater than 0", false⟩) ∧
    ((V2.add line2 c2 now2 d2 s2).err =
      if 0 < s2.currentNum + d2 then some "current number exceeds max" else none) ∧
    ((V2.add constLine2 (V2.mkConfig 0) 0 0
        (V2.initState constLine2 (V2.mkConfig 0) 0)).err = none ∧
      (V2.add constLine2 (V2.mkConfig 0) 0 0
        (V2.initState constLine2 (V2.mkConfig 0) 0)).rendered = true ∧
      (V2.add constLine2 (V2.mkConfig 0) 0 0
          (V2.initState constLine2 (V2.mkConfig 0) 0)).state.out ≠
        (V2.initState constLine2 (V2.mkConfig 0) 0).out) := by
  refine ⟨add_max_zero_v1 line1 c1 now1 d1 s1 hvis (by omega), ?_, by decide⟩
  have h := (V2.add_spec2 line2 c2 now2 d2 s2 hig2).2.1
  rw [h, hmax2]

/-- Counterexample to C3 as stated: variant 2's `add` has no `max ≤ 0`
check; on a freshly constructed visible bar with max = 0, `Add(0)` returns
no error (the claim demands the invalid-bound error) and renders, growing
the written output (the claim demands it unchanged). -/
theorem c3_counterexample :
    (V2.mkConfig 0).max = 0 ∧
    (V2.add constLine2 (V2.mkConfig 0) 0 0
      (V2.initState constLine2 (V2.mkConfig 0) 0)).err = none ∧
    (V2.add constLine2 (V2.mkConfig 0) 0 0
        (V2.initState constLine2 (V2.mkConfig 0) 0)).state.out ≠
      (V2.initState constLine2 (V2.mkConfig 0) 0).out := by
  decide

/-- Witness for C3 at concrete inputs: variant 1 rejects Add(5) on a
fresh max-0 bar leaving everything untouched; variant 2's error on a
max-0 bar is governed by the sign of the mutated counter. -/
theorem c3_witness :
    (V1.add constLine1 (V1.mkConfig 0) 0 5 (V1.initState 0) =
      ⟨V1.initState 0, some "max must be greater than 0", false⟩) ∧
    ((V2.add constLine2 (V2.mkConfig 0) 0 (-2) (V2.blankState 0)).err =
      if 0 < (V2.blankState 0).currentNum + (-2) then some "current number exceeds max"
      else none) :=
  ⟨(c3_add_on_zero_max constLine1 (V1.mkConfig 0) 0 5 (V1.initState 0)
      constLine2 (V2.mkConfig 0) 0 (-2) (V2.blankState 0)
      (by decide) (by decide) (by decide) (by decide)).1,
    (c3_add_on_zero_max constLine1 (V1.mkConfig 0) 0 5 (V1.initState 0)
      constLine2 (V2.mkConfig 0) 0 (-2) (V2.blankState 0)
      (by decide) (by decide) (by decide) (by decide)).2.1⟩

/-! ### C4: the render decision inside `add` -/

namespace V1

/-- The counter value after `add`'s mutation step (net effect of lines
515-521). -/
def counterAfter (c : Config) (delta : ℤ) (s : State) : ℤ :=
  if s.currentNum < c.max then
    if c.ignoreLength then Int.tmod (s.currentNum + delta) c.max else s.currentNum + delta
  else s.currentNum

/-- The integer percentage `add` computes for the updated counter
(line 541). -/
def percentAfter (c : Config) (delta : ℤ) (s : State) : ℤ :=
  goTrunc (goMul (goDiv ((counterAfter c delta s : ℤ) : ℚ) ((c.max : ℤ) : ℚ)) 100)

theorem counterStep_num_eq (c : Config) (delta : ℤ) (s : State) :
    (counterStep c delta s).currentNum = counterAfter c delta s := by
  unfold counterStep counterAfter
  split_ifs <;> rfl

theorem counterStep_lastPercent (c : Config) (delta : ℤ) (s : State) :
    (counterStep c delta s).lastPercent = s.lastPercent := by
  unfold counterStep
  split_ifs <;> rfl

theorem rateStep_lastPercent (now : ℚ) (delta : ℤ) (s : State) :
    (rateStep now delta s).lastPercent = s.lastPercent := by
  unfold rateStep
  dsimp only
  split_ifs <;> rfl

theorem percentStep_lastPercent (c : Config) (s : State) :
    (percentStep c s).lastPercent = s.lastPercent := rfl

theorem percentStep_currentPercent (c : Config) (s : State) :
    (percentStep c s).currentPercent =
      goTrunc (goMul (goDiv ((s.currentNum : ℤ) : ℚ) ((c.max : ℤ) : ℚ)) 100) := rfl

/-- The render decision of variant 1's `add` on a visible bar, for calls
that do not return an error: the render step runs iff the freshly computed
percentage differs from `lastPercent` *and is positive*, or a rate/count
display is on, or the delta is zero. -/
theorem add_rendered (line : Line) (c : Config) (now : ℚ) (delta : ℤ) (s : State)
    (hvis : c.invisible = false) (herr : (add line c now delta s).err = none) :
    ((add line c now delta s).rendered = true ↔
      renderCond c.showIterationsPerSecond c.showIterationsCount s.lastPercent
        (percentAfter c delta s) delta) := by
  by_cases hm : c.max ≤ 0
  · rw [add_max_zero_v1 line c now delta s hvis hm] at herr
    exact absurd herr (by simp)
  unfold add at herr ⊢
  rw [if_neg (by simp [hvis]), if_neg hm] at herr ⊢
  dsimp only at herr ⊢
  set s1 := counterStep c delta s with hs1
  set s2 : State := { s1 with currentBytes := goAdd s1.currentBytes ((delta : ℤ) : ℚ) }
    with hs2
  set s3 := (if ¬c.totalRate = true then rateStep now delta s2 else s2) with hs3
  have hs2num : s2.currentNum = counterAfter c delta s := by
    rw [hs2]
    show s1.currentNum = _
    rw [hs1, counterStep_num_eq]
  have hs2lp : s2.lastPercent = s.lastPercent := by
    rw [hs2]
    show s1.lastPercent = s.lastPercent
    rw [hs1, counterStep_lastPercent]
  have hnum : s3.currentNum = counterAfter c delta s := by
    rw [hs3]
    split_ifs <;>
      simp only [rateStep_currentNum, hs2num, hs1, counterStep_num_eq]
  have hlp : (percentStep c s3).lastPercent = s.lastPercent := by
    rw [percentStep_lastPercent, hs3]
    split_ifs <;>
      simp only [rateStep_lastPercent, hs2lp, hs1, counterStep_lastPercent]
  have hcp : (percentStep c s3).currentPercent = percentAfter c delta s := by
    rw [percentStep_currentPercent, hnum]
    rfl
  by_cases hover : c.max < (percentStep c s3).currentNum
  · rw [if_pos hover] at herr
    exact absurd herr (by simp)
  · rw [if_neg hover] at herr ⊢
    by_cases hrc : renderCond c.showIterationsPerSecond c.showIterationsCount
        (percentStep c s3).lastPercent (percentStep c s3).currentPercent delta
    · rw [if_pos hrc]
      rw [hlp, hcp] at hrc
      exact iff_of_true rfl hrc
    · rw [if_neg hrc]
      rw [hlp, hcp] at hrc
      exact iff_of_false (by simp) hrc

end V1

namespace V2

/-- The counter value after variant 2's unconditional mutation (lines
1531-1533). -/
def counterAfter (c : Config) (delta : ℤ) (s : State) : ℤ :=
  if c.ignoreLength then Int.tmod (s.currentNum + delta) c.max else s.currentNum + delta

/-- The integer percentage variant 2's `add` computes for the updated
counter (line 1578). -/
def percentAfter (c : Config) (delta : ℤ) (s : State) : ℤ :=
  goTrunc (goMul (goDiv ((counterAfter c delta s : ℤ) : ℚ) ((c.max : ℤ) : ℚ)) 100)

/-- The throttle gate of variant 2's `add` (lines 1546-1550) expressed on
the pre-call state: a positive throttle interval that has not yet elapsed
since the last paint, with the (already mutated) counter still below
max. -/
def throttledAfter (c : Config) (now : ℚ) (delta : ℤ) (s : State) : Prop :=
  0 < c.throttleInterval ∧ goSub now s.lastShown < c.throttleInterval ∧
    counterAfter c delta s < c.max

instance (c : Config) (now : ℚ) (delta : ℤ) (s : State) :
    Decidable (throttledAfter c now delta s) := by
  unfold throttledAfter
  infer_instance

theorem addRate_lastPercent (r : ℚ) (s : State) :
    (addRate r s).lastPercent = s.lastPercent := by
  unfold addRate
  dsimp only
  split_ifs <;> rfl

theorem rateStep_lastPercent2 (now : ℚ) (s : State) :
    (rateStep now s).lastPercent = s.lastPercent := by
  unfold rateStep
  rcases s.counterTime with _ | ct <;>
    dsimp only <;>
    split_ifs <;>
    simp only [addRate_lastPercent]

theorem percentStep_lastPercent2 (c : Config) (s : State) :
    (percentStep c s).lastPercent = s.lastPercent := rfl

theorem percentStep_currentPercent2 (c : Config) (s : State) :
    (percentStep c s).currentPercent =
      goTrunc (goMul (goDiv ((s.currentNum : ℤ) : ℚ) ((c.max : ℤ) : ℚ)) 100) := rfl

/-- The render decision of `addTail`, in terms of its input state: render
runs iff the call passes the throttle gate and the render condition holds
for the percentage computed from the (already mutated) counter. -/
theorem addTail_rendered (line : Line) (c : Config) (now : ℚ) (delta : ℤ) (s : State) :
    ((addTail line c now delta s).rendered = true ↔
      (¬(0 < c.throttleInterval ∧ goSub now s.lastShown < c.throttleInterval ∧
          s.currentNum < c.max) ∧
        renderCond c.showIterationsPerSecond c.showIterationsCount s.lastPercent
          (goTrunc (goMul (goDiv ((s.currentNum : ℤ) : ℚ) ((c.max : ℤ) : ℚ)) 100)) delta)) := by
  unfold addTail
  dsimp only
  set s2 := (if ¬c.totalRate = true then
      { s with currentBytes := goAdd s.currentBytes ((delta : ℤ) : ℚ),
               counterNumSinceLast := s.counterNumSinceLast + delta }
    else { s with currentBytes := goAdd s.currentBytes ((delta : ℤ) : ℚ) }) with hs2
  have hs2num : s2.currentNum = s.currentNum := by
    rw [hs2]
    split_ifs <;> rfl
  have hs2ls : s2.lastShown = s.lastShown := by
    rw [hs2]
    split_ifs <;> rfl
  have hs2lp : s2.lastPercent = s.lastPercent := by
    rw [hs2]
    split_ifs <;> rfl
  have hth : throttled c now s2 ↔
      (0 < c.throttleInterval ∧ goSub now s.lastShown < c.throttleInterval ∧
        s.currentNum < c.max) := by
    unfold throttled
    rw [hs2num, hs2ls]
  set s3 := (if ¬c.totalRate = true then rateStep now s2 else s2) with hs3
  have hnum : s3.currentNum = s.currentNum := by
    rw [hs3]
    split_ifs <;> simp only [rateStep_currentNum2, hs2num]
  have hlp : (percentStep c s3).lastPercent = s.lastPercent := by
    rw [percentStep_lastPercent2, hs3]
    split_ifs <;> simp only [rateStep_lastPercent2, hs2lp]
  have hcp : (percentStep c s3).currentPercent =
      goTrunc (goMul (goDiv ((s.currentNum : ℤ) : ℚ) ((c.max : ℤ) : ℚ)) 100) := by
    rw [percentStep_currentPercent2, hnum]
  by_cases hthr : throttled c now s2
  · rw [if_pos hthr]
    exact iff_of_false (by simp) (by rw [not_and]; intro hn; exact absurd (hth.mp hthr) hn)
  · rw [if_neg hthr]
    by_cases hrc : renderCond c.showIterationsPerSecond c.showIterationsCount
        (percentStep c s3).lastPercent (percentStep c s3).currentPercent delta
    · rw [if_pos hrc]
      rw [hlp, hcp] at hrc
      exact iff_of_true rfl ⟨fun hc => hthr (hth.mpr hc), hrc⟩
    · rw [if_neg hrc]
      rw [hlp, hcp] at hrc
      exact iff_of_false (by simp) (fun hc => hrc hc.2)

/-- The render decision of variant 2's `add`, for calls that do not return
an error. -/
theorem add_rendered2 (line : Line) (c : Config) (now : ℚ) (delta : ℤ) (s : State)
    (herr : (add line c now delta s).err = none) :
    ((add line c now delta s).rendered = true ↔
      (¬throttledAfter c now delta s ∧
        renderCond c.showIterationsPerSecond c.showIterationsCount s.lastPercent
          (percentAfter c delta s) delta)) := by
  unfold add at herr ⊢
  dsimp only at herr ⊢
  by_cases hig : c.ignoreLength = true
  · rw [if_pos hig] at herr ⊢
    rw [addTail_rendered]
    unfold throttledAfter percentAfter counterAfter
    rw [if_pos hig]
  · rw [if_neg hig] at herr ⊢
    by_cases hover : c.max < s.currentNum + delta
    · rw [if_pos hover] at herr
      exact absurd herr (by simp)
    · rw [if_neg hover] at herr ⊢
      rw [addTail_rendered]
      unfold throttledAfter percentAfter counterAfter
      rw [if_neg hig]

end V2

/-- C4 (amended: condition (a) additionally requires the newly computed
percentage to be positive — the code's `currentPercent > 0` conjunct
(lines 542 and 1579); "last rendered percentage" is the `lastPercent`
field, which both variants update on *every* call, rendered or not; and in
variant 2 the call must also pass the time-throttle gate, which sits in
`add` itself rather than inside the render step (lines 1546-1550)): on a
visible bar, an Add/Add64 call that returns no error invokes the render
step iff (the computed percentage differs from `lastPercent` and is
positive), or iteration-rate display is enabled, or iteration-count
display is enabled, or the delta is exactly zero — variant 2 additionally
requiring the throttle gate to pass. -/
theorem c4_render_decision (line1 : V1.Line) (c1 : V1.Config) (now1 : ℚ) (d1 : ℤ)
    (s1 : V1.State) (line2 : V2.Line) (c2 : V2.Config) (now2 : ℚ) (d2 : ℤ)
    (s2 : V2.State) (hvis : c1.invisible = false)
    (herr1 : (V1.add line1 c1 now1 d1 s1).err = none)
    (herr2 : (V2.add line2 c2 now2 d2 s2).err = none) :
    ((V1.add line1 c1 now1 d1 s1).rendered = true ↔
      renderCond c1.showIterationsPerSecond c1.showIterationsCount s1.lastPercent
        (V1.percentAfter c1 d1 s1) d1) ∧
    ((V2.add line2 c2 now2 d2 s2).rendered = true ↔
      (¬V2.throttledAfter c2 now2 d2 s2 ∧
        renderCond c2.showIterationsPerSecond c2.showIterationsCount s2.lastPercent
          (V2.percentAfter c2 d2 s2) d2)) :=
  ⟨V1.add_rendered line1 c1 now1 d1 s1 hvis herr1,
    V2.add_rendered2 line2 c2 now2 d2 s2 herr2⟩

/-- Counterexample to C4 as stated: on variant 1 with max = 100, after a
rendered Add(5) (percentage 5), the call Add(-5) returns no error, changes
the computed percentage from 5 to 0 (so it differs from the last rendered
percentage), has rate/count displays off and a nonzero delta — the claim
demands a render — yet no render happens, because the code additionally
requires the new percentage to be positive. -/
theorem c4_counterexample :
    (V1.add constLine1 (V1.mkConfig 100) 0 (-5)
      (V1.add constLine1 (V1.mkConfig 100) 0 5 (V1.initState 0)).state).err = none ∧
    (V1.add constLine1 (V1.mkConfig 100) 0 5 (V1.initState 0)).rendered = true ∧
    (V1.add constLine1 (V1.mkConfig 100) 0 5 (V1.initState 0)).state.lastPercent = 5 ∧
    V1.percentAfter (V1.mkConfig 100) (-5)
      (V1.add constLine1 (V1.mkConfig 100) 0 5 (V1.initState 0)).state = 0 ∧
    (V1.mkConfig 100).showIterationsPerSecond = false ∧
    (V1.mkConfig 100).showIterationsCount = false ∧
    ((-5 : ℤ) ≠ 0) ∧
    (V1.add constLine1 (V1.mkConfig 100) 0 (-5)
      (V1.add constLine1 (V1.mkConfig 100) 0 5 (V1.initState 0)).state).rendered = false := by
  decide

/-- Witness for C4 at a concrete input: Add(5) on fresh bars with max 100
renders in both variants (percentage 0 → 5, positive, throttle gate
trivially passed). -/
theorem c4_witness :
    (V1.add constLine1 (V1.mkConfig 100) 0 5 (V1.initState 0)).rendered = true ∧
    (V2.add constLine2 (V2.mkConfig 100) 0 5 (V2.blankState 0)).rendered = true := by
  have h := c4_render_decision constLine1 (V1.mkConfig 100) 0 5 (V1.initState 0)
    constLine2 (V2.mkConfig 100) 0 5 (V2.blankState 0) (by decide) (by decide) (by decide)
  exact ⟨h.1.mpr (by decide), h.2.mpr (by decide)⟩

/-! ### C6: spinner frame selection -/

/-- Euclidean integer division agrees with the floor for a positive
divisor: `⌊x / n⌋ = ⌊x⌋ / n`. -/
theorem floor_div_int_pos (x : ℚ) (n : ℤ) (hn : 0 < n) :
    ⌊x / (n : ℚ)⌋ = ⌊x⌋ / n := by
  have hn' : (0 : ℚ) < (n : ℚ) := by exact_mod_cast hn
  have hmod0 : 0 ≤ ⌊x⌋ % n := Int.emod_nonneg _ (by omega)
  have hmodlt : ⌊x⌋ % n < n := Int.emod_lt_of_pos _ hn
  have hP : n * (⌊x⌋ / n) = ⌊x⌋ - ⌊x⌋ % n := by
    rw [Int.emod_def]
    ring
  have hIntLe : n * (⌊x⌋ / n) ≤ ⌊x⌋ := by
    rw [hP]
    linarith
  have hIntLt : ⌊x⌋ < n * (⌊x⌋ / n) + n := by
    rw [hP]
    linarith
  rw [Int.floor_eq_iff]
  constructor
  · rw [le_div_iff hn']
    have hc : ((⌊x⌋ / n : ℤ) : ℚ) * (n : ℚ) = ((n * (⌊x⌋ / n) : ℤ) : ℚ) := by
      push_cast
      ring
    rw [hc]
    calc ((n * (⌊x⌋ / n) : ℤ) : ℚ) ≤ ((⌊x⌋ : ℤ) : ℚ) := by exact_mod_cast hIntLe
      _ ≤ x := Int.floor_le x
  · rw [div_lt_iff hn']
    have hc2 : (((⌊x⌋ / n : ℤ) : ℚ) + 1) * (n : ℚ) = ((n * (⌊x⌋ / n) + n : ℤ) : ℚ) := by
      push_cast
      ring
    rw [hc2]
    calc x < ((⌊x⌋ : ℤ) : ℚ) + 1 := Int.lt_floor_add_one x
      _ ≤ ((n * (⌊x⌋ / n) + n : ℤ) : ℚ) := by
          exact_mod_cast Int.add_one_le_iff.mpr hIntLt

theorem spinnerIndexV1_eq (t : ℚ) (n : ℕ) (ht : 0 ≤ t) (hn : 0 < n) :
    spinnerIndexV1 t n = specSpinnerIndex (1000 * t) n := by
  have hnZ : (0 : ℤ) < (n : ℤ) := by exact_mod_cast hn
  have h1000t : (0 : ℚ) ≤ 1000 * t := by linarith
  have hms : goMilliseconds t = ⌊(1000 : ℚ) * t⌋ := by
    unfold goMilliseconds
    rw [goMul_eq, goTrunc_of_nonneg h1000t]
  have hdt : Int.tdiv ⌊(1000 : ℚ) * t⌋ 100 = ⌊(1000 : ℚ) * t⌋ / 100 :=
    Int.tdiv_eq_ediv (Int.floor_nonneg.mpr h1000t) (by omega)
  unfold spinnerIndexV1
  dsimp only
  rw [hms, hdt]
  set dt : ℤ := ⌊(1000 : ℚ) * t⌋ / 100 with hdtdef
  have hdt0 : 0 ≤ dt := by
    rw [hdtdef]
    have : 0 ≤ ⌊(1000 : ℚ) * t⌋ := Int.floor_nonneg.mpr h1000t
    omega
  have hfm : goFMod ((dt : ℤ) : ℚ) ((n : ℕ) : ℚ) = ((dt % (n : ℤ) : ℤ) : ℚ) := by
    unfold goFMod
    rw [goSub_eq, goMul_eq, goDiv_eq]
    have hcast : (((n : ℕ) : ℚ)) = (((n : ℤ) : ℤ) : ℚ) := by push_cast; ring
    have hq : ((dt : ℤ) : ℚ) / ((n : ℕ) : ℚ) = ((dt : ℤ) : ℚ) / (((n : ℤ)) : ℚ) := by
      norm_cast
    rw [hq, goTrunc_of_nonneg (by positivity), floor_div_int_pos _ _ hnZ, Int.floor_intCast,
      Int.emod_def]
    push_cast
    ring
  rw [hfm, goRound_intCast, goTrunc_intCast]
  unfold specSpinnerIndex
  have h10 : (1000 : ℚ) * t / 100 = ((10 : ℤ) : ℚ) * t := by
    push_cast
    ring
  have hfloor : ⌊(1000 : ℚ) * t / 100⌋ = dt := by
    rw [hdtdef, ← floor_div_int_pos ((1000 : ℚ) * t) 100 (by omega)]
    norm_num
  rw [hfloor]

theorem spinnerIndexV2_eq (t : ℚ) (n : ℕ) (ht : 0 ≤ t) (hn : 0 < n) :
    spinnerIndexV2 t n = specSpinnerIndex (1000 * t) n := by
  have hnZ : (0 : ℤ) < (n : ℤ) := by exact_mod_cast hn
  have hn' : (0 : ℚ) < ((n : ℕ) : ℚ) := by exact_mod_cast hn
  unfold spinnerIndexV2
  rw [goMul_eq]
  set x : ℚ := (10 : ℚ) * t with hx
  have hx0 : 0 ≤ x := by
    rw [hx]
    positivity
  have hfq : ((n : ℕ) : ℚ) = (((n : ℤ)) : ℚ) := by push_cast; ring
  have hfm : goFMod x ((n : ℕ) : ℚ) = x - ((n : ℤ) : ℚ) * ((⌊x⌋ / (n : ℤ) : ℤ) : ℚ) := by
    unfold goFMod
    rw [goSub_eq, goMul_eq, goDiv_eq, hfq, goTrunc_of_nonneg (by positivity),
      floor_div_int_pos _ _ hnZ]
  rw [hfm]
  have hq1 : ((n : ℤ) : ℚ) * ((⌊x⌋ / (n : ℤ) : ℤ) : ℚ) = (((n : ℤ) * (⌊x⌋ / (n : ℤ)) : ℤ) : ℚ) := by
    push_cast
    ring
  have hsub0 : 0 ≤ x - ((n : ℤ) : ℚ) * ((⌊x⌋ / (n : ℤ) : ℤ) : ℚ) := by
    rw [hq1]
    have hle : ((n : ℤ) * (⌊x⌋ / (n : ℤ)) : ℤ) ≤ ⌊x⌋ := by
      have h := Int.emod_def ⌊x⌋ (n : ℤ)
      have h0 : 0 ≤ ⌊x⌋ % (n : ℤ) := Int.emod_nonneg _ (by omega)
      linarith
    calc (0 : ℚ) ≤ x - ((⌊x⌋ : ℤ) : ℚ) := by linarith [Int.floor_le x]
      _ ≤ x - (((n : ℤ) * (⌊x⌋ / (n : ℤ)) : ℤ) : ℚ) := by
          have : (((n : ℤ) * (⌊x⌋ / (n : ℤ)) : ℤ) : ℚ) ≤ ((⌊x⌋ : ℤ) : ℚ) := by
            exact_mod_cast hle
          linarith
  rw [goTrunc_of_nonneg hsub0, hq1, Int.floor_sub_int]
  unfold specSpinnerIndex
  have hxeq : (1000 : ℚ) * t / 100 = x := by
    rw [hx]
    ring
  rw [hxeq, Int.emod_def]

/-- C6: in ignore-length (spinner) mode while the bar is not finished,
the rendered spinner glyph for elapsed wall time `t` seconds is the frame
at index `⌊t·1000/100⌋ mod cycle-length` of the configured cycle — in both
variants, although variant 1 computes it from truncated milliseconds with
`math.Round∘math.Mod` and variant 2 from float seconds with `math.Mod` —
and once finished, a static "100%" marker (blank in variant 2 when
stopped) replaces the glyph. -/
theorem c6_spinner_frame (st : ℕ) (hst : st = 9 ∨ st = 14 ∨ st = 59) (t : ℚ)
    (ht : 0 ≤ t) (description sbStr leftBrac : String) (elapsed stopped : Bool) :
    (spinnerIndexV1 t (spinnersV1 st).length =
        specSpinnerIndex (1000 * t) (spinnersV1 st).length ∧
      spinnerIndexV2 t (spinnersV2 st).length =
        specSpinnerIndex (1000 * t) (spinnersV2 st).length) ∧
    spinnerLineV1 st t false description sbStr leftBrac elapsed =
      "\r " ++ (spinnersV1 st).getD
          (specSpinnerIndex (1000 * t) (spinnersV1 st).length).toNat "" ++
        spinnerTail description sbStr leftBrac elapsed ∧
    spinnerLineV2 st t false stopped description sbStr leftBrac elapsed =
      " " ++ (spinnersV2 st).getD
          (specSpinnerIndex (1000 * t) (spinnersV2 st).length).toNat "" ++
        spinnerTail description sbStr leftBrac elapsed ∧
    spinnerLineV1 st t true description sbStr leftBrac elapsed =
      "\r 100%" ++ spinnerTail description sbStr leftBrac elapsed ∧
    spinnerLineV2 st t true stopped description sbStr leftBrac elapsed =
      (if stopped then "" else "100%") ++ spinnerTail description sbStr leftBrac elapsed := by
  have h1 : 0 < (spinnersV1 st).length := by
    rcases hst with h | h | h <;> subst h <;> decide
  have h2 : 0 < (spinnersV2 st).length := by
    rcases hst with h | h | h <;> subst h <;> decide
  refine ⟨⟨spinnerIndexV1_eq t _ ht h1, spinnerIndexV2_eq t _ ht h2⟩, ?_, ?_, ?_, ?_⟩
  · unfold spinnerLineV1
    rw [if_pos (by simp)]
    dsimp only
    rw [spinnerIndexV1_eq t _ ht h1]
  · unfold spinnerLineV2
    rw [if_pos (by simp)]
    dsimp only
    rw [spinnerIndexV2_eq t _ ht h2]
  · unfold spinnerLineV1
    rw [if_neg (by simp)]
  · unfold spinnerLineV2
    rw [if_neg (by simp)]
    rcases stopped with _ | _ <;> simp [spStr]

/-- Witness for C6 at a concrete input: style 9 at one second of elapsed
time (frame index ⌊1000/100⌋ mod 4 = 2). -/
theorem c6_witness :
    spinnerLineV1 9 1 false "job" "" "" false =
      "\r " ++ (spinnersV1 9).getD
          (specSpinnerIndex (1000 * 1) (spinnersV1 9).length).toNat "" ++
        spinnerTail "job" "" "" false ∧
    spinnerLineV2 9 1 true true "job" "" "" false =
      (if true then "" else "100%") ++ spinnerTail "job" "" "" false :=
  ⟨(c6_spinner_frame 9 (Or.inl rfl) 1 (by decide) "job" "" "" false true).2.1,
    (c6_spinner_frame 9 (Or.inl rfl) 1 (by decide) "job" "" "" false true).2.2.2.2⟩

/-! ### C7: humanizeBytes formatting -/

theorem natDigitsCore_no_dot :
    ∀ (fuel n : ℕ) (acc : List Char), (∀ ch ∈ acc, ch ≠ '.') →
      ∀ ch ∈ natDigitsCore fuel n acc, ch ≠ '.' := by
  intro fuel
  induction fuel with
  | zero => intro n acc hacc ch hch; exact hacc ch hch
  | succ fuel ih =>
    intro n acc hacc ch hch
    have hdig : Char.ofNat (48 + n % 10) ≠ '.' := by
      have h10 : n % 10 < 10 := Nat.mod_lt _ (by omega)
      set k := n % 10 with hk
      interval_cases k <;> decide
    rw [natDigitsCore] at hch
    split_ifs at hch with h
    · rcases List.mem_cons.mp hch with h1 | h1
      · rw [h1]; exact hdig
      · exact hacc ch h1
    · refine ih (n / 10) _ ?_ ch hch
      intro c hc
      rcases List.mem_cons.mp hc with h1 | h1
      · rw [h1]; exact hdig
      · exact hacc c h1

theorem natStr_no_dot (n : ℕ) : ∀ ch ∈ (natStr n).data, ch ≠ '.' := by
  intro ch hch
  exact natDigitsCore_no_dot (n + 1) n [] (by intro c hc; cases hc) ch hch

theorem natStr_single (n : ℕ) (h : n < 10) :
    (natStr n).data = [Char.ofNat (48 + n % 10)] := by
  unfold natStr
  show natDigitsCore (n + 1) n [] = _
  rw [natDigitsCore]
  rw [if_pos h]

theorem dropWhile_append_dot (A B : List Char) (hA : ∀ c ∈ A, c ≠ '.') :
    List.dropWhile (fun c => c != '.') (A ++ '.' :: B) = '.' :: B := by
  induction A with
  | nil =>
    rw [List.nil_append, List.dropWhile_cons]
    simp
  | cons a A ih =>
    rw [List.cons_append, List.dropWhile_cons]
    have ha : (a != '.') = true := bne_iff_ne.mpr (hA a (List.mem_cons_self _ _))
    rw [if_pos ha]
    exact ih (fun c hc => hA c (List.mem_cons_of_mem _ hc))

theorem hasNoDecimal_intStr (z : ℤ) : hasNoDecimal (intStr z) = true := by
  unfold hasNoDecimal intStr
  rw [List.all_eq_true]
  split_ifs with h
  · intro c hc
    rw [String.data_append] at hc
    rcases List.mem_append.mp hc with h1 | h1
    · have hc' : c = '-' := by simpa using h1
      rw [hc']
      decide
    · exact bne_iff_ne.mpr (natStr_no_dot _ c h1)
  · intro c hc
    exact bne_iff_ne.mpr (natStr_no_dot _ c hc)

theorem hasOneDecimal_fmtDec1 (q : ℚ) : hasOneDecimal (fmtDec1 q) = true := by
  unfold hasOneDecimal fmtDec1
  dsimp only
  split_ifs with h
  · rw [String.data_append, String.data_append, String.data_append]
    have hshape : (("-" : String).data ++ (natStr ((-roundHalfEven (goMul 10 q)).toNat / 10)).data ++
        ("." : String).data) ++ (natStr ((-roundHalfEven (goMul 10 q)).toNat % 10)).data =
        (('-' :: (natStr ((-roundHalfEven (goMul 10 q)).toNat / 10)).data) ++
          ('.' :: (natStr ((-roundHalfEven (goMul 10 q)).toNat % 10)).data)) := by
      simp
    rw [hshape, dropWhile_append_dot]
    · rw [natStr_single _ (Nat.mod_lt _ (by omega)), List.length_cons, List.length_singleton]
      rfl
    · intro c hc
      rcases List.mem_cons.mp hc with h1 | h1
      · rw [h1]; decide
      · exact natStr_no_dot _ c h1
  · rw [String.data_append, String.data_append]
    have hshape : ((natStr ((roundHalfEven (goMul 10 q)).toNat / 10)).data ++
        ("." : String).data) ++ (natStr ((roundHalfEven (goMul 10 q)).toNat % 10)).data =
        ((natStr ((roundHalfEven (goMul 10 q)).toNat / 10)).data ++
          ('.' :: (natStr ((roundHalfEven (goMul 10 q)).toNat % 10)).data)) := by
      simp
    rw [hshape, dropWhile_append_dot]
    · rw [natStr_single _ (Nat.mod_lt _ (by omega)), List.length_cons, List.length_singleton]
      rfl
    · exact natStr_no_dot _

/-- C7: `humanizeBytes` renders 12,340,000 as "12" with suffix MB and
56,780,000,000 as "57" with suffix GB (variant 1's table writes the
suffix with a leading space); in general, on the power-of-1000 scaling
path (`10 ≤ s`, and `s < 1000^7` so that Go's table indexing is in
range), the scaled-and-rounded value is printed with exactly one decimal
place when below 10 and with none at or above 10. -/
theorem c7_humanize_bytes :
    (humanizeBytes sizesV2 12340000 = ("12", "MB") ∧
      humanizeBytes sizesV1 12340000 = ("12", " MB")) ∧
    (humanizeBytes sizesV2 56780000000 = ("57", "GB") ∧
      humanizeBytes sizesV1 56780000000 = ("57", " GB")) ∧
    (∀ (sizes : List String) (s : ℚ), 10 ≤ s → s < 1000 ^ 7 →
      (hbVal s < 10 → hasOneDecimal (humanizeBytes sizes s).1 = true) ∧
      (10 ≤ hbVal s → hasNoDecimal (humanizeBytes sizes s).1 = true)) := by
  refine ⟨⟨by decide, by decide⟩, ⟨by decide, by decide⟩, ?_⟩
  intro sizes s h10 _
  constructor
  · intro hlt
    unfold humanizeBytes
    rw [if_neg (by linarith), if_pos hlt]
    exact hasOneDecimal_fmtDec1 (hbVal s)
  · intro hge
    unfold humanizeBytes
    rw [if_neg (by linarith), if_neg (by linarith)]
    exact hasNoDecimal_intStr (roundHalfEven (hbVal s))

/-- Witness for C7 at a concrete input: 12,340,000 takes the scaling path
and its value 12.3 ≥ 10 is printed with no decimal place. -/
theorem c7_witness :
    (10 : ℚ) ≤ 12340000 ∧ (12340000 : ℚ) < 1000 ^ 7 ∧ (10 : ℚ) ≤ hbVal 12340000 ∧
      hasNoDecimal (humanizeBytes sizesV2 12340000).1 = true := by
  refine ⟨by decide, ?_, by decide, ?_⟩
  · show (12340000 : ℚ) < 1000 ^ 7
    norm_num
  · exact ((c7_humanize_bytes.2.2 sizesV2 12340000 (by decide) (by norm_num)).2 (by decide))

end Progressbar
